import Mathlib

/-!
Verification of the duck_duck_MCP server (`ddg_mcp_server.py`, `tcp_ddg_server.py`)
against its natural-language specification.

The development shallowly embeds the three subsystems the claims are about:

* the framed message channel (`send_message` / `read_message` on STDIO,
  `read_message` on TCP), modelled over streams of bytes (`List Nat`, each < 256),
  together with models of CPython's UTF-8 codec (strict and ignore
  error modes) and of `json.dumps` / `json.loads` restricted to the JSON fragment
  the server exchanges (objects, arrays, strings, integers, booleans, null);
* the text-repair engine (`fix_encoding`, `manual_fix_russian_encoding`), with
  the external `ftfy.fix_text` collaborator abstracted as a function parameter
  and CPython's charmap codecs for windows-1251, iso-8859-1 and windows-1252
  embedded as explicit tables; float ratios are modelled as exact rationals;
* the dispatcher (`handle_request`), with the external DDGS search provider
  abstracted as a function parameter and Python exceptions modelled with
  `Except`.
-/

/- ### CPython UTF-8 codec over byte lists -/

/-- Continuation-byte test: a UTF-8 continuation byte lies in `0x80..0xBF`. -/
def isCont (b : Nat) : Prop := 0x80 ≤ b ∧ b ≤ 0xBF

instance (b : Nat) : Decidable (isCont b) := by unfold isCont; infer_instance

/-- Lower bound for the first continuation byte after a three-byte lead
(`0xE0` requires `0xA0..`, other leads `0x80..`). -/
def lo3 (b0 : Nat) : Nat := if b0 = 0xE0 then 0xA0 else 0x80

/-- Upper bound for the first continuation byte after a three-byte lead
(`0xED` allows `..0x9F`, excluding surrogates; other leads `..0xBF`). -/
def hi3 (b0 : Nat) : Nat := if b0 = 0xED then 0x9F else 0xBF

/-- Validity of the first continuation byte after a three-byte lead. -/
def firstCont3 (b0 b1 : Nat) : Prop := lo3 b0 ≤ b1 ∧ b1 ≤ hi3 b0

instance (b0 b1 : Nat) : Decidable (firstCont3 b0 b1) := by
  unfold firstCont3; infer_instance

/-- Lower bound for the first continuation byte after a four-byte lead
(`0xF0` requires `0x90..`). -/
def lo4 (b0 : Nat) : Nat := if b0 = 0xF0 then 0x90 else 0x80

/-- Upper bound for the first continuation byte after a four-byte lead
(`0xF4` allows `..0x8F`, capping at `U+10FFFF`). -/
def hi4 (b0 : Nat) : Nat := if b0 = 0xF4 then 0x8F else 0xBF

/-- Validity of the first continuation byte after a four-byte lead. -/
def firstCont4 (b0 b1 : Nat) : Prop := lo4 b0 ≤ b1 ∧ b1 ≤ hi4 b0

instance (b0 b1 : Nat) : Decidable (firstCont4 b0 b1) := by
  unfold firstCont4; infer_instance

/-- Standard UTF-8 encoding of one Unicode scalar value as a list of bytes. -/
def utf8EncodeChar (c : Char) : List Nat :=
  if c.toNat < 0x80 then [c.toNat]
  else if c.toNat < 0x800 then [0xC0 + c.toNat / 0x40, 0x80 + c.toNat % 0x40]
  else if c.toNat < 0x10000 then
    [0xE0 + c.toNat / 0x1000, 0x80 + c.toNat / 0x40 % 0x40, 0x80 + c.toNat % 0x40]
  else
    [0xF0 + c.toNat / 0x40000, 0x80 + c.toNat / 0x1000 % 0x40,
      0x80 + c.toNat / 0x40 % 0x40, 0x80 + c.toNat % 0x40]

/-- UTF-8 encoding of a character sequence; models Python `str.encode` with the
utf-8 codec (also under the ignore error handler, since every scalar value is
encodable). -/
def utf8Encode : List Char → List Nat
  | [] => []
  | c :: cs => utf8EncodeChar c ++ utf8Encode cs

/-- Strict UTF-8 decoding of a byte list; models Python `bytes.decode` with the
utf-8 codec and default (strict) error handling: `none` models
`UnicodeDecodeError`. -/
def utf8DecodeStrict : List Nat → Option (List Char)
  | [] => some []
  | b0 :: bs =>
    if b0 < 0x80 then
      (utf8DecodeStrict bs).map (fun cs => Char.ofNat b0 :: cs)
    else if 0xC2 ≤ b0 ∧ b0 ≤ 0xDF then
      match bs with
      | b1 :: bs1 =>
        if isCont b1 then
          (utf8DecodeStrict bs1).map
            (fun cs => Char.ofNat ((b0 - 0xC0) * 0x40 + (b1 - 0x80)) :: cs)
        else none
      | [] => none
    else if 0xE0 ≤ b0 ∧ b0 ≤ 0xEF then
      match bs with
      | b1 :: bs1 =>
        if firstCont3 b0 b1 then
          match bs1 with
          | b2 :: bs2 =>
            if isCont b2 then
              (utf8DecodeStrict bs2).map (fun cs =>
                Char.ofNat ((b0 - 0xE0) * 0x1000 + (b1 - 0x80) * 0x40 +
                  (b2 - 0x80)) :: cs)
            else none
          | [] => none
        else none
      | [] => none
    else if 0xF0 ≤ b0 ∧ b0 ≤ 0xF4 then
      match bs with
      | b1 :: bs1 =>
        if firstCont4 b0 b1 then
          match bs1 with
          | b2 :: bs2 =>
            if isCont b2 then
              match bs2 with
              | b3 :: bs3 =>
                if isCont b3 then
                  (utf8DecodeStrict bs3).map (fun cs =>
                    Char.ofNat ((b0 - 0xF0) * 0x40000 + (b1 - 0x80) * 0x1000 +
                      (b2 - 0x80) * 0x40 + (b3 - 0x80)) :: cs)
                else none
              | [] => none
            else none
          | [] => none
        else none
      | [] => none
    else none

/-- UTF-8 decoding under the ignore error handler; models CPython
`bytes.decode` for utf-8 with that handler, which skips the maximal subpart of
each ill-formed subsequence (one byte for an invalid lead or an invalid first
continuation, the lead plus the valid continuations read so far otherwise) and
drops a truncated sequence at the end of input.  The fuel argument only
bounds the number of decoding steps (each step consumes at least one byte,
so the input length is always enough); `utf8DecodeIgnore` below supplies
it. -/
def utf8DecodeIgnoreF : Nat → List Nat → List Char
  | 0, _ => []
  | _ + 1, [] => []
  | fuel + 1, b0 :: bs =>
    if b0 < 0x80 then Char.ofNat b0 :: utf8DecodeIgnoreF fuel bs
    else if 0xC2 ≤ b0 ∧ b0 ≤ 0xDF then
      match bs with
      | b1 :: bs1 =>
        if isCont b1 then
          Char.ofNat ((b0 - 0xC0) * 0x40 + (b1 - 0x80)) ::
            utf8DecodeIgnoreF fuel bs1
        else utf8DecodeIgnoreF fuel (b1 :: bs1)
      | [] => []
    else if 0xE0 ≤ b0 ∧ b0 ≤ 0xEF then
      match bs with
      | b1 :: bs1 =>
        if firstCont3 b0 b1 then
          match bs1 with
          | b2 :: bs2 =>
            if isCont b2 then
              Char.ofNat ((b0 - 0xE0) * 0x1000 + (b1 - 0x80) * 0x40 +
                (b2 - 0x80)) :: utf8DecodeIgnoreF fuel bs2
            else utf8DecodeIgnoreF fuel (b2 :: bs2)
          | [] => []
        else utf8DecodeIgnoreF fuel (b1 :: bs1)
      | [] => []
    else if 0xF0 ≤ b0 ∧ b0 ≤ 0xF4 then
      match bs with
      | b1 :: bs1 =>
        if firstCont4 b0 b1 then
          match bs1 with
          | b2 :: bs2 =>
            if isCont b2 then
              match bs2 with
              | b3 :: bs3 =>
                if isCont b3 then
                  Char.ofNat ((b0 - 0xF0) * 0x40000 + (b1 - 0x80) * 0x1000 +
                    (b2 - 0x80) * 0x40 + (b3 - 0x80)) ::
                    utf8DecodeIgnoreF fuel bs3
                else utf8DecodeIgnoreF fuel (b3 :: bs3)
              | [] => []
            else utf8DecodeIgnoreF fuel (b2 :: bs2)
          | [] => []
        else utf8DecodeIgnoreF fuel (b1 :: bs1)
      | [] => []
    else utf8DecodeIgnoreF fuel bs

/-- UTF-8 decoding under the ignore error handler (see
`utf8DecodeIgnoreF`). -/
def utf8DecodeIgnore (bs : List Nat) : List Char :=
  utf8DecodeIgnoreF bs.length bs

/- ### JSON values

The JSON fragment the server exchanges: objects, arrays, strings, integers,
booleans, null.  (Python also has float JSON numbers; no claim depends on
them, and the server's own envelopes carry only integers, so numbers are
modelled as integers.) -/

inductive Json where
  | null
  | bool (b : Bool)
  | num (n : Int)
  | str (s : String)
  | arr (elems : List Json)
  | obj (members : List (String × Json))

/-- First-match association lookup; models Python `dict.get(k)` on a dict
represented as its key-value list in insertion order (Python dicts never hold
a duplicated key, so first-match is exact on dict-shaped lists). -/
def dictGet : List (String × Json) → String → Option Json
  | [], _ => none
  | kv :: kvs, k => if kv.1 = k then some kv.2 else dictGet kvs k

/-- Whether a JSON value is an object, i.e. Python `isinstance(x, dict)`. -/
def Json.isObj : Json → Bool
  | .obj _ => true
  | _ => false

/- ### json.dumps with ensure_ascii=False and default separators -/

/-- Lowercase hexadecimal digit, as used by Python's json string escaping. -/
def hexDigit (n : Nat) : Char :=
  if n < 10 then Char.ofNat (48 + n) else Char.ofNat (87 + n)

/-- Escaping of one character inside a JSON string, per Python `json.dumps`
with `ensure_ascii=False`: only the quote, the backslash and control
characters below 0x20 are escaped. -/
def escapeChar (c : Char) : List Char :=
  if c = '"' then ['\\', '"']
  else if c = '\\' then ['\\', '\\']
  else if c = '\x08' then ['\\', 'b']
  else if c = '\x0c' then ['\\', 'f']
  else if c = '\n' then ['\\', 'n']
  else if c = '\r' then ['\\', 'r']
  else if c = '\t' then ['\\', 't']
  else if c.toNat < 0x20 then
    ['\\', 'u', '0', '0', hexDigit (c.toNat / 16), hexDigit (c.toNat % 16)]
  else [c]

def escapeString : List Char → List Char
  | [] => []
  | c :: cs => escapeChar c ++ escapeString cs

/-- Decimal digits of a natural number, most significant first; the fuel
argument only bounds the recursion depth (the number itself is always
enough). -/
def natDigitsF : Nat → Nat → List Char
  | 0, n => [Char.ofNat (48 + n % 10)]
  | fuel + 1, n =>
    if n < 10 then [Char.ofNat (48 + n)]
    else natDigitsF fuel (n / 10) ++ [Char.ofNat (48 + n % 10)]

/-- Decimal digits of a natural number, most significant first. -/
def natDigits (n : Nat) : List Char := natDigitsF n n

/-- Decimal rendering of an integer; models Python `str` on `int`. -/
def intToChars (n : Int) : List Char :=
  if n < 0 then '-' :: natDigits n.natAbs else natDigits n.toNat

mutual

/-- Serialization of a JSON value, per Python `json.dumps` with
`ensure_ascii=False` and the default separators (a comma-space between items,
a colon-space after keys). -/
def Json.dumpChars : Json → List Char
  | .null => "null".data
  | .bool true => "true".data
  | .bool false => "false".data
  | .num n => intToChars n
  | .str s => '"' :: (escapeString s.data ++ ['"'])
  | .arr xs => '[' :: (dumpElems xs ++ [']'])
  | .obj kvs => '{' :: (dumpMembers kvs ++ ['}'])

/-- Serialization of the element list of a JSON array (without brackets). -/
def dumpElems : List Json → List Char
  | [] => []
  | [x] => x.dumpChars
  | x :: y :: xs => x.dumpChars ++ ',' :: ' ' :: dumpElems (y :: xs)

/-- Serialization of the member list of a JSON object (without braces). -/
def dumpMembers : List (String × Json) → List Char
  | [] => []
  | [(k, v)] => '"' :: (escapeString k.data ++ '"' :: ':' :: ' ' :: v.dumpChars)
  | (k, v) :: m :: kvs =>
    '"' :: (escapeString k.data ++ '"' :: ':' :: ' ' :: v.dumpChars ++
      ',' :: ' ' :: dumpMembers (m :: kvs))

end

/-- Python `json.dumps(data, ensure_ascii=False)` as a Lean `String`. -/
def dumps (j : Json) : String := String.mk j.dumpChars

/- ### json.loads -/

/-- JSON whitespace, as skipped by Python's json scanner. -/
def isJsonWs (c : Char) : Bool := c == ' ' || c == '\t' || c == '\n' || c == '\r'

def skipWs : List Char → List Char
  | [] => []
  | c :: cs => if isJsonWs c then skipWs cs else c :: cs

/-- ASCII decimal digit test (codepoints 48..57). -/
def isDigitChar (c : Char) : Bool := decide (48 ≤ c.toNat) && decide (c.toNat ≤ 57)

/-- Whether a character list starts with an ASCII decimal digit. -/
def headIsDigit : List Char → Bool
  | [] => false
  | c :: _ => isDigitChar c

/-- Value of a hexadecimal digit, if any. -/
def hexVal (c : Char) : Option Nat :=
  if 48 ≤ c.toNat ∧ c.toNat ≤ 57 then some (c.toNat - 48)
  else if 97 ≤ c.toNat ∧ c.toNat ≤ 102 then some (c.toNat - 87)
  else if 65 ≤ c.toNat ∧ c.toNat ≤ 70 then some (c.toNat - 55)
  else none

/-- Single-character JSON escapes (`\u` is handled separately). -/
def escDecode (e : Char) : Option Char :=
  if e = '"' then some '"'
  else if e = '\\' then some '\\'
  else if e = '/' then some '/'
  else if e = 'b' then some '\x08'
  else if e = 'f' then some '\x0c'
  else if e = 'n' then some '\n'
  else if e = 'r' then some '\r'
  else if e = 't' then some '\t'
  else none

/-- Fueled JSON string body parser; the fuel is only a recursion bound and
one unit is consumed per source character, so `parseStr` below supplies
enough for any input. -/
def parseStrF : Nat → List Char → Option (List Char × List Char)
  | 0, _ => none
  | fuel + 1, cs =>
    match cs with
    | [] => none
    | c :: cs =>
      if c = '"' then some ([], cs)
      else if c = '\\' then
        match cs with
        | [] => none
        | e :: cs1 =>
          if e = 'u' then
            match cs1 with
            | [] => none
            | d1 :: t1 =>
              match hexVal d1 with
              | none => none
              | some v1 =>
                match t1 with
                | [] => none
                | d2 :: t2 =>
                  match hexVal d2 with
                  | none => none
                  | some v2 =>
                    match t2 with
                    | [] => none
                    | d3 :: t3 =>
                      match hexVal d3 with
                      | none => none
                      | some v3 =>
                        match t3 with
                        | [] => none
                        | d4 :: t4 =>
                          match hexVal d4 with
                          | none => none
                          | some v4 =>
                            if v1 * 0x1000 + v2 * 0x100 + v3 * 0x10 + v4 < 0xD800
                                ∨ 0xE000 ≤ v1 * 0x1000 + v2 * 0x100 + v3 * 0x10 + v4 then
                              (parseStrF fuel t4).map (fun p =>
                                (Char.ofNat (v1 * 0x1000 + v2 * 0x100 + v3 * 0x10 + v4)
                                  :: p.1, p.2))
                            else none
          else
            match escDecode e with
            | none => none
            | some d => (parseStrF fuel cs1).map (fun p => (d :: p.1, p.2))
      else if c.toNat < 0x20 then none
      else (parseStrF fuel cs).map (fun p => (c :: p.1, p.2))

/-- JSON string body parser (called after the opening quote); models Python
`py_scanstring` in strict mode: raw control characters below 0x20 are
rejected, recognized escapes are decoded.  A `\\u` escape denoting a lone
surrogate is rejected (such a value is not representable as a scalar-value
character; CPython would build a surrogate-carrying `str`, which no claim
exercises). -/
def parseStr (cs : List Char) : Option (List Char × List Char) :=
  parseStrF cs.length cs

/-- Greedy decimal-digit accumulation. -/
def takeDigits (acc : Nat) : List Char → Nat × List Char
  | [] => (acc, [])
  | c :: cs =>
    if isDigitChar c then takeDigits (acc * 10 + (c.toNat - 48)) cs
    else (acc, c :: cs)

/-- Unsigned JSON integer body, per the json module's number regex
(`0` or a nonzero digit followed by digits; no leading zeros). -/
def parseNumBody : List Char → Option (Nat × List Char)
  | [] => none
  | c :: cs =>
    if c = '0' then some (0, cs)
    else if 49 ≤ c.toNat ∧ c.toNat ≤ 57 then some (takeDigits (c.toNat - 48) cs)
    else none

/-- Signed JSON integer (the fragment of Python's number grammar without
fractions and exponents, which would produce floats). -/
def parseNum : List Char → Option (Int × List Char)
  | [] => none
  | c :: cs =>
    if c = '-' then (parseNumBody cs).map (fun p => (-(p.1 : Int), p.2))
    else (parseNumBody (c :: cs)).map (fun p => ((p.1 : Int), p.2))

/-- Literal matcher (the tail of `null`, `true`, `false`). -/
def expectChars : List Char → List Char → Option (List Char)
  | [], cs => some cs
  | _ :: _, [] => none
  | l :: ls, c :: cs => if c = l then expectChars ls cs else none

/-- Python dict insertion: a repeated key keeps its original position and
takes the latest value, a fresh key is appended.  This is how `json.loads`
builds objects (later duplicate keys win). -/
def insertPair (kvs : List (String × Json)) (k : String) (v : Json) :
    List (String × Json) :=
  if kvs.any (fun kv => kv.1 == k) then
    kvs.map (fun kv => if kv.1 = k then (k, v) else kv)
  else kvs ++ [(k, v)]

mutual

/-- Fueled recursive-descent parser for one JSON value, modelling the json
module's `scan_once`: returns the value and the unconsumed remainder.  The
fuel only bounds recursion depth bookkeeping; `loads` supplies enough for any
input it is given. -/
def parseVal : Nat → List Char → Option (Json × List Char)
  | 0, _ => none
  | fuel + 1, cs =>
    match skipWs cs with
    | [] => none
    | c :: cs1 =>
      if c = '{' then
        match skipWs cs1 with
        | [] => none
        | c2 :: cs2 =>
          if c2 = '}' then some (.obj [], cs2)
          else (parseMembers fuel (c2 :: cs2) []).map (fun p => (.obj p.1, p.2))
      else if c = '[' then
        match skipWs cs1 with
        | [] => none
        | c2 :: cs2 =>
          if c2 = ']' then some (.arr [], cs2)
          else (parseElems fuel (c2 :: cs2) []).map (fun p => (.arr p.1, p.2))
      else if c = '"' then
        (parseStr cs1).map (fun p => (.str (String.mk p.1), p.2))
      else if c = 'n' then
        (expectChars ['u', 'l', 'l'] cs1).map (fun r => (.null, r))
      else if c = 't' then
        (expectChars ['r', 'u', 'e'] cs1).map (fun r => (.bool true, r))
      else if c = 'f' then
        (expectChars ['a', 'l', 's', 'e'] cs1).map (fun r => (.bool false, r))
      else if c = '-' ∨ isDigitChar c then
        (parseNum (c :: cs1)).map (fun p => (.num p.1, p.2))
      else none

/-- Parser for the elements of a nonempty JSON array, after the opening
bracket (whitespace permitted); `acc` holds the elements already read. -/
def parseElems : Nat → List Char → List Json → Option (List Json × List Char)
  | 0, _, _ => none
  | fuel + 1, cs, acc =>
    match parseVal fuel cs with
    | none => none
    | some (v, cs1) =>
      match skipWs cs1 with
      | [] => none
      | c :: cs2 =>
        if c = ',' then parseElems fuel cs2 (acc ++ [v])
        else if c = ']' then some (acc ++ [v], cs2)
        else none

/-- Parser for the members of a nonempty JSON object, after the opening
brace (whitespace permitted); `acc` holds the dict built so far. -/
def parseMembers : Nat → List Char → List (String × Json) →
    Option (List (String × Json) × List Char)
  | 0, _, _ => none
  | fuel + 1, cs, acc =>
    match skipWs cs with
    | [] => none
    | c :: cs1 =>
      if c = '"' then
        match parseStr cs1 with
        | none => none
        | some (k, cs2) =>
          match skipWs cs2 with
          | [] => none
          | c2 :: cs3 =>
            if c2 = ':' then
              match parseVal fuel cs3 with
              | none => none
              | some (v, cs4) =>
                match skipWs cs4 with
                | [] => none
                | c3 :: cs5 =>
                  if c3 = ',' then
                    parseMembers fuel cs5 (insertPair acc (String.mk k) v)
                  else if c3 = '}' then some (insertPair acc (String.mk k) v, cs5)
                  else none
            else none
      else none

end

/-- Python `json.loads`: parse one document, then require that only
whitespace remains (otherwise the json module raises, modelled as `none`). -/
def loads (s : String) : Option Json :=
  match parseVal (s.length + 1) s.data with
  | none => none
  | some (j, rest) => if skipWs rest = [] then some j else none

/-- Accumulator value of a digit string (used to state `takeDigits` facts). -/
def digitsVal (acc : Nat) (ds : List Char) : Nat :=
  ds.foldl (fun a c => a * 10 + (c.toNat - 48)) acc

/-- Left fold of Python dict insertion, as performed by the object parser. -/
def foldInsert (acc : List (String × Json)) (kvs : List (String × Json)) :
    List (String × Json) :=
  kvs.foldl (fun a kv => insertPair a kv.1 kv.2) acc

mutual

/-- Sufficient parser fuel for a JSON value (each parser call consumes one
unit of fuel; a value needs one unit per node plus one per list step). -/
def Json.fuelNeed : Json → Nat
  | .null | .bool _ | .num _ | .str _ => 1
  | .arr xs => 1 + fuelNeedElems xs
  | .obj kvs => 1 + fuelNeedMembers kvs

def fuelNeedElems : List Json → Nat
  | [] => 0
  | x :: xs => 1 + x.fuelNeed + fuelNeedElems xs

def fuelNeedMembers : List (String × Json) → Nat
  | [] => 0
  | kv :: kvs => 1 + kv.2.fuelNeed + fuelNeedMembers kvs

end

mutual

/-- Dict-shaped JSON: every object in the tree has pairwise distinct keys.
`json.dumps` is applied by the server only to Python dict trees, which have
this property by construction. -/
def Json.canonical : Json → Bool
  | .null | .bool _ | .num _ | .str _ => true
  | .arr xs => canonicalElems xs
  | .obj kvs => decide ((kvs.map Prod.fst).Nodup) && canonicalMembers kvs

def canonicalElems : List Json → Bool
  | [] => true
  | x :: xs => x.canonical && canonicalElems xs

def canonicalMembers : List (String × Json) → Bool
  | [] => true
  | kv :: kvs => kv.2.canonical && canonicalMembers kvs

end

/- ### Python string helpers -/

/-- Characters for which Python `str.isspace()` holds, restricted to the code
points below 0x100 plus NEL; higher Unicode space code points never occur on
these byte streams. -/
def isPySpace (c : Char) : Bool :=
  c == ' ' || c == '\t' || c == '\n' || c == '\r' || c == '\x0b' || c == '\x0c' ||
    c == '\x1c' || c == '\x1d' || c == '\x1e' || c == '\x1f' || c == '\x85' ||
    c == '\xa0'

/-- Python `str.strip()` with no arguments. -/
def pyStrip (s : String) : String :=
  String.mk (((s.data.dropWhile isPySpace).reverse.dropWhile isPySpace).reverse)

/-- Python `int(s)` on an already-stripped string, restricted to an optional
ASCII sign and ASCII digits (Python additionally accepts underscore grouping
and non-ASCII decimal digits, which no frame in this system carries);
`none` models `ValueError`. -/
def pyIntParse (s : String) : Option Int :=
  match s.data with
  | [] => none
  | c :: ds =>
    if c = '-' then
      if ds ≠ [] ∧ ds.all isDigitChar then some (-(digitsVal 0 ds : Int))
      else none
    else if c = '+' then
      if ds ≠ [] ∧ ds.all isDigitChar then some ((digitsVal 0 ds : Int))
      else none
    else if (c :: ds).all isDigitChar then some ((digitsVal 0 (c :: ds) : Int))
    else none

/- ### STDIO framed channel (`ddg_mcp_server.py`) -/

/-- Split a byte stream at the first newline: the first component is the line
including its terminating 0x0A when present, the second the remainder. -/
def takeLine : List Nat → List Nat × List Nat
  | [] => ([], [])
  | b :: bs =>
    if b = 0x0A then ([0x0A], bs)
    else
      let p := takeLine bs
      (b :: p.1, p.2)

/-- `sys.stdin.readline()`: reads one line (UTF-8 text mode) from the byte
stream; `none` models a `UnicodeDecodeError` escaping the read (caught by
`read_message`'s outer handler). At end of stream it returns the empty
string, like Python. -/
def readline (stream : List Nat) : Option (String × List Nat) :=
  match utf8DecodeStrict (takeLine stream).1 with
  | none => none
  | some cs => some (String.mk cs, (takeLine stream).2)

/-- `send_message` (ddg_mcp_server.py lines 30-49): serialize with
`json.dumps(data, ensure_ascii=False)`, UTF-8-encode, and emit the byte-length
prefix line, the payload bytes, and a trailing newline. -/
def send_message (data : Json) : List Nat :=
  utf8Encode (natDigits (utf8Encode (dumps data).data).length) ++ [0x0A] ++
    utf8Encode (dumps data).data ++ [0x0A]

/-- Whether a string starts with a left brace, `stripped_line.startswith` in
the source. -/
def startsLBrace (s : String) : Bool :=
  match s.data with
  | c :: _ => c == '{'
  | [] => false

/-- Whether a string ends with a right brace. -/
def endsRBrace (s : String) : Bool :=
  match s.data.getLast? with
  | some c => c == '}'
  | none => false

/-- The length-prefixed branch of `read_message` (lines 87-125): parse the
length, read exactly that many bytes, UTF-8-decode them strictly, skip one
trailing byte, then `json.loads` with the is-dict check.  The second
component is the unconsumed stream suffix. -/
def lengthPath (stripped : String) (rest : List Nat) : Option Json × List Nat :=
  match pyIntParse stripped with
  | none => (none, rest)
  | some n =>
    if n < 0 then (none, rest)
    else if (rest.take n.toNat).length ≠ n.toNat then (none, rest.drop n.toNat)
    else
      match utf8DecodeStrict (rest.take n.toNat) with
      | none => (none, (rest.drop n.toNat).drop 1)
      | some cs =>
        match loads (String.mk cs) with
        | some parsed =>
          if parsed.isObj then (some parsed, (rest.drop n.toNat).drop 1)
          else (none, (rest.drop n.toNat).drop 1)
        | none => (none, (rest.drop n.toNat).drop 1)

/-- `read_message` (ddg_mcp_server.py lines 51-134) over a byte stream, with
explicit stream threading: read the first line, skip empty lines, accept a
direct JSON-object line, otherwise treat the line as a byte-length prefix.
Every error path of the source returns `None`; the fuel only bounds the
empty-line-skipping loop (each iteration consumes at least one byte), and
`read_message` supplies enough for any stream. -/
def read_message_core : Nat → List Nat → Option Json × List Nat
  | 0, stream => (none, stream)
  | fuel + 1, stream =>
    match readline stream with
    | none => (none, stream)
    | some (line, rest) =>
      if line.data = [] then (none, rest)
      else if (pyStrip line).data = [] then read_message_core fuel rest
      else
        if startsLBrace (pyStrip line) && endsRBrace (pyStrip line) then
          match loads (pyStrip line) with
          | some parsed =>
            if parsed.isObj then (some parsed, rest) else (none, rest)
          | none => lengthPath (pyStrip line) rest
        else lengthPath (pyStrip line) rest

def read_message (stream : List Nat) : Option Json × List Nat :=
  read_message_core (stream.length + 1) stream

/- ### TCP framed channel (`tcp_ddg_server.py`) -/

/-- The TCP first-line read (lines 79-112): `recv(1)` until a newline; `none`
when the client closes the connection before the newline arrives. -/
def tcpTakeLine : List Nat → Option (List Nat × List Nat)
  | [] => none
  | b :: bs =>
    if b = 0x0A then some ([], bs)
    else
      match tcpTakeLine bs with
      | none => none
      | some (l, r) => some (b :: l, r)

/-- `read_message` of tcp_ddg_server.py (lines 72-195): reads the first line
(100KB limit), tries the legacy length-prefixed format first, otherwise
treats the line itself as the message; the parsed JSON value is returned
without any dict check. -/
def tcp_read_message (stream : List Nat) : Option Json :=
  match tcpTakeLine stream with
  | none => none
  | some (first_line_bytes, rest) =>
    if 102400 < first_line_bytes.length then none
    else if first_line_bytes = [] then none
    else
      match utf8DecodeStrict first_line_bytes with
      | none => none
      | some cs =>
        let first_line := pyStrip (String.mk cs)
        match pyIntParse first_line with
        | some n =>
          if n < 0 ∨ 10485760 < n then none
          else
            let length := n.toNat
            if rest.length < length then none
            else
              match utf8DecodeStrict (rest.take length) with
              | none => none
              | some cdata =>
                if cdata = [] then none
                else loads (String.mk cdata)
        | none =>
          if first_line.data = [] then none
          else loads first_line

/-- The static payload of get_search_operators (ddg_mcp_server.py lines 136-151). -/
def searchOperatorsJson : Json :=
  .obj [
    ("description", .str "\u041e\u043f\u0435\u0440\u0430\u0442\u043e\u0440\u044b \u043f\u043e\u0438\u0441\u043a\u0430 DDG"),
    ("operators", .obj [
      ("cats dogs", .str "\u0420\u0435\u0437\u0443\u043b\u044c\u0442\u0430\u0442\u044b \u043e cats \u0438\u043b\u0438 dogs"),
      ("\"cats and dogs\"", .str "\u0420\u0435\u0437\u0443\u043b\u044c\u0442\u0430\u0442\u044b \u0442\u043e\u0447\u043d\u043e\u0433\u043e \u0441\u043e\u0432\u043f\u0430\u0434\u0435\u043d\u0438\u044f \x27cats and dogs\x27"),
      ("cats -dogs", .str "\u041c\u0435\u043d\u044c\u0448\u0435 \u0443\u043f\u043e\u043c\u0438\u043d\u0430\u043d\u0438\u0439 dogs \u0432 \u0440\u0435\u0437\u0443\u043b\u044c\u0442\u0430\u0442\u0430\u0445"),
      ("cats +dogs", .str "\u0411\u043e\u043b\u044c\u0448\u0435 \u0443\u043f\u043e\u043c\u0438\u043d\u0430\u043d\u0438\u0439 dogs \u0432 \u0440\u0435\u0437\u0443\u043b\u044c\u0442\u0430\u0442\u0430\u0445"),
      ("cats filetype:pdf", .str "PDF \u0444\u0430\u0439\u043b\u044b \u043e cats"),
      ("dogs site:example.com", .str "\u0421\u0442\u0440\u0430\u043d\u0438\u0446\u044b \u043e dogs \u0441 \u0441\u0430\u0439\u0442\u0430 example.com"),
      ("cats -site:example.com", .str "\u0421\u0442\u0440\u0430\u043d\u0438\u0446\u044b \u043e cats, \u0438\u0441\u043a\u043b\u044e\u0447\u0430\u044f example.com"),
      ("intitle:dogs", .str "\u0417\u0430\u0433\u043e\u043b\u043e\u0432\u043e\u043a \u0441\u0442\u0440\u0430\u043d\u0438\u0446\u044b \u0441\u043e\u0434\u0435\u0440\u0436\u0438\u0442 \u0441\u043b\u043e\u0432\u043e \x27dogs\x27"),
      ("inurl:cats", .str "URL \u0441\u0442\u0440\u0430\u043d\u0438\u0446\u044b \u0441\u043e\u0434\u0435\u0440\u0436\u0438\u0442 \u0441\u043b\u043e\u0432\u043e \x27cats\x27")])]
/-- The static tool catalog returned by tools/list (ddg_mcp_server.py lines 653-752). -/
def toolsListJson : Json :=
  .arr [
    .obj [
      ("name", .str "ddg_search_text"),
      ("description", .str "\u041f\u043e\u0438\u0441\u043a \u0442\u0435\u043a\u0441\u0442\u0430 \u0447\u0435\u0440\u0435\u0437 DuckDuckGo"),
      ("inputSchema", .obj [
        ("type", .str "object"),
        ("properties", .obj [
          ("query", .obj [
            ("type", .str "string"),
            ("description", .str "\u041f\u043e\u0438\u0441\u043a\u043e\u0432\u044b\u0439 \u0437\u0430\u043f\u0440\u043e\u0441")]),
          ("region", .obj [
            ("type", .str "string"),
            ("default", .str "us-en"),
            ("description", .str "\u0420\u0435\u0433\u0438\u043e\u043d \u043f\u043e\u0438\u0441\u043a\u0430 (us-en, ru-ru, uk-ua \u0438 \u0442.\u0434.)")]),
          ("safesearch", .obj [
            ("type", .str "string"),
            ("default", .str "moderate"),
            ("enum", .arr [
              .str "on",
              .str "moderate",
              .str "off"])]),
          ("timelimit", .obj [
            ("type", .str "string"),
            ("enum", .arr [
              .str "d",
              .str "w",
              .str "m",
              .str "y"]),
            ("description", .str "d=\u0434\u0435\u043d\u044c, w=\u043d\u0435\u0434\u0435\u043b\u044f, m=\u043c\u0435\u0441\u044f\u0446, y=\u0433\u043e\u0434")]),
          ("max_results", .obj [
            ("type", .str "integer"),
            ("default", .num 10),
            ("minimum", .num 1),
            ("maximum", .num 50)]),
          ("page", .obj [
            ("type", .str "integer"),
            ("default", .num 1)]),
          ("backend", .obj [
            ("type", .str "string"),
            ("default", .str "auto")])]),
        ("required", .arr [
          .str "query"])])],
    .obj [
      ("name", .str "ddg_search_news"),
      ("description", .str "\u041f\u043e\u0438\u0441\u043a \u043d\u043e\u0432\u043e\u0441\u0442\u0435\u0439 \u0447\u0435\u0440\u0435\u0437 DuckDuckGo News (\u043c\u043e\u0436\u0435\u0442 \u0438\u0441\u043f\u043e\u043b\u044c\u0437\u043e\u0432\u0430\u0442\u044c backend: duckduckgo, yahoo)"),
      ("inputSchema", .obj [
        ("type", .str "object"),
        ("properties", .obj [
          ("query", .obj [
            ("type", .str "string"),
            ("description", .str "\u041f\u043e\u0438\u0441\u043a\u043e\u0432\u044b\u0439 \u0437\u0430\u043f\u0440\u043e\u0441 \u0434\u043b\u044f \u043d\u043e\u0432\u043e\u0441\u0442\u0435\u0439")]),
          ("region", .obj [
            ("type", .str "string"),
            ("default", .str "us-en"),
            ("description", .str "\u0420\u0435\u0433\u0438\u043e\u043d \u043d\u043e\u0432\u043e\u0441\u0442\u0435\u0439 (us-en, ru-ru, uk-ua \u0438 \u0442.\u0434.)")]),
          ("safesearch", .obj [
            ("type", .str "string"),
            ("default", .str "moderate"),
            ("enum", .arr [
              .str "on",
              .str "moderate",
              .str "off"])]),
          ("timelimit", .obj [
            ("type", .str "string"),
            ("enum", .arr [
              .str "d",
              .str "w",
              .str "m"]),
            ("description", .str "d=\u0434\u0435\u043d\u044c, w=\u043d\u0435\u0434\u0435\u043b\u044f, m=\u043c\u0435\u0441\u044f\u0446 (\u0433\u043e\u0434 \u043d\u0435 \u043f\u043e\u0434\u0434\u0435\u0440\u0436\u0438\u0432\u0430\u0435\u0442\u0441\u044f \u0434\u043b\u044f \u043d\u043e\u0432\u043e\u0441\u0442\u0435\u0439)")]),
          ("max_results", .obj [
            ("type", .str "integer"),
            ("default", .num 10),
            ("minimum", .num 1)]),
          ("page", .obj [
            ("type", .str "integer"),
            ("default", .num 1)]),
          ("backend", .obj [
            ("type", .str "string"),
            ("default", .str "auto"),
            ("description", .str "auto, duckduckgo, yahoo")])]),
        ("required", .arr [
          .str "query"])])],
    .obj [
      ("name", .str "ddg_search_images"),
      ("description", .str "\u041f\u043e\u0438\u0441\u043a \u0438\u0437\u043e\u0431\u0440\u0430\u0436\u0435\u043d\u0438\u0439 \u0447\u0435\u0440\u0435\u0437 DuckDuckGo Images"),
      ("inputSchema", .obj [
        ("type", .str "object"),
        ("properties", .obj [
          ("query", .obj [
            ("type", .str "string"),
            ("description", .str "\u041f\u043e\u0438\u0441\u043a\u043e\u0432\u044b\u0439 \u0437\u0430\u043f\u0440\u043e\u0441 \u0434\u043b\u044f \u0438\u0437\u043e\u0431\u0440\u0430\u0436\u0435\u043d\u0438\u0439")]),
          ("region", .obj [
            ("type", .str "string"),
            ("default", .str "us-en"),
            ("description", .str "\u0420\u0435\u0433\u0438\u043e\u043d \u043f\u043e\u0438\u0441\u043a\u0430 (us-en, ru-ru, uk-ua \u0438 \u0442.\u0434.)")]),
          ("safesearch", .obj [
            ("type", .str "string"),
            ("default", .str "moderate"),
            ("enum", .arr [
              .str "on",
              .str "moderate",
              .str "off"])]),
          ("timelimit", .obj [
            ("type", .str "string"),
            ("enum", .arr [
              .str "d",
              .str "w",
              .str "m",
              .str "y"]),
            ("description", .str "d=\u0434\u0435\u043d\u044c, w=\u043d\u0435\u0434\u0435\u043b\u044f, m=\u043c\u0435\u0441\u044f\u0446, y=\u0433\u043e\u0434")]),
          ("max_results", .obj [
            ("type", .str "integer"),
            ("default", .num 10),
            ("minimum", .num 1)]),
          ("page", .obj [
            ("type", .str "integer"),
            ("default", .num 1)]),
          ("backend", .obj [
            ("type", .str "string"),
            ("default", .str "auto")]),
          ("size", .obj [
            ("type", .str "string"),
            ("enum", .arr [
              .str "Small",
              .str "Medium",
              .str "Large",
              .str "Wallpaper"]),
            ("description", .str "\u0420\u0430\u0437\u043c\u0435\u0440 \u0438\u0437\u043e\u0431\u0440\u0430\u0436\u0435\u043d\u0438\u044f")]),
          ("color", .obj [
            ("type", .str "string"),
            ("enum", .arr [
              .str "color",
              .str "Monochrome",
              .str "Red",
              .str "Orange",
              .str "Yellow",
              .str "Green",
              .str "Blue",
              .str "Purple",
              .str "Pink",
              .str "Brown",
              .str "Black",
              .str "Gray",
              .str "Teal",
              .str "White"]),
            ("description", .str "\u0426\u0432\u0435\u0442 \u0438\u0437\u043e\u0431\u0440\u0430\u0436\u0435\u043d\u0438\u044f")]),
          ("type_image", .obj [
            ("type", .str "string"),
            ("enum", .arr [
              .str "photo",
              .str "clipart",
              .str "gif",
              .str "transparent",
              .str "line"]),
            ("description", .str "\u0422\u0438\u043f \u0438\u0437\u043e\u0431\u0440\u0430\u0436\u0435\u043d\u0438\u044f")]),
          ("layout", .obj [
            ("type", .str "string"),
            ("enum", .arr [
              .str "Square",
              .str "Tall",
              .str "Wide"]),
            ("description", .str "\u041e\u0440\u0438\u0435\u043d\u0442\u0430\u0446\u0438\u044f \u0438\u0437\u043e\u0431\u0440\u0430\u0436\u0435\u043d\u0438\u044f")]),
          ("license_image", .obj [
            ("type", .str "string"),
            ("enum", .arr [
              .str "any",
              .str "Public",
              .str "Share",
              .str "ShareCommercially",
              .str "Modify",
              .str "ModifyCommercially"]),
            ("description", .str "\u041b\u0438\u0446\u0435\u043d\u0437\u0438\u044f: any (All Creative Commons), Public (PublicDomain), Share (Free to Share and Use), ShareCommercially (Free to Share and Use Commercially), Modify (Free to Modify, Share, and Use), ModifyCommercially (Free to Modify, Share, and Use Commercially)")])]),
        ("required", .arr [
          .str "query"])])],
    .obj [
      ("name", .str "ddg_search_videos"),
      ("description", .str "\u041f\u043e\u0438\u0441\u043a \u0432\u0438\u0434\u0435\u043e \u0447\u0435\u0440\u0435\u0437 DuckDuckGo Videos"),
      ("inputSchema", .obj [
        ("type", .str "object"),
        ("properties", .obj [
          ("query", .obj [
            ("type", .str "string"),
            ("description", .str "\u041f\u043e\u0438\u0441\u043a\u043e\u0432\u044b\u0439 \u0437\u0430\u043f\u0440\u043e\u0441 \u0434\u043b\u044f \u0432\u0438\u0434\u0435\u043e")]),
          ("region", .obj [
            ("type", .str "string"),
            ("default", .str "us-en"),
            ("description", .str "\u0420\u0435\u0433\u0438\u043e\u043d \u043f\u043e\u0438\u0441\u043a\u0430 (us-en, ru-ru, uk-ua \u0438 \u0442.\u0434.)")]),
          ("safesearch", .obj [
            ("type", .str "string"),
            ("default", .str "moderate"),
            ("enum", .arr [
              .str "on",
              .str "moderate",
              .str "off"])]),
          ("timelimit", .obj [
            ("type", .str "string"),
            ("enum", .arr [
              .str "d",
              .str "w",
              .str "m"]),
            ("description", .str "d=\u0434\u0435\u043d\u044c, w=\u043d\u0435\u0434\u0435\u043b\u044f, m=\u043c\u0435\u0441\u044f\u0446 (\u0433\u043e\u0434 \u043d\u0435 \u043f\u043e\u0434\u0434\u0435\u0440\u0436\u0438\u0432\u0430\u0435\u0442\u0441\u044f \u0434\u043b\u044f \u0432\u0438\u0434\u0435\u043e)")]),
          ("max_results", .obj [
            ("type", .str "integer"),
            ("default", .num 10),
            ("minimum", .num 1)]),
          ("page", .obj [
            ("type", .str "integer"),
            ("default", .num 1)]),
          ("backend", .obj [
            ("type", .str "string"),
            ("default", .str "auto")]),
          ("resolution", .obj [
            ("type", .str "string"),
            ("enum", .arr [
              .str "high",
              .str "standard"]),
            ("description", .str "\u0420\u0430\u0437\u0440\u0435\u0448\u0435\u043d\u0438\u0435 \u0432\u0438\u0434\u0435\u043e (\u043e\u0431\u0440\u0430\u0442\u0438\u0442\u0435 \u0432\u043d\u0438\u043c\u0430\u043d\u0438\u0435: standard, \u043d\u0435 standart)")]),
          ("duration", .obj [
            ("type", .str "string"),
            ("enum", .arr [
              .str "short",
              .str "medium",
              .str "long"]),
            ("description", .str "\u0414\u043b\u0438\u0442\u0435\u043b\u044c\u043d\u043e\u0441\u0442\u044c \u0432\u0438\u0434\u0435\u043e")]),
          ("license_videos", .obj [
            ("type", .str "string"),
            ("enum", .arr [
              .str "creativeCommon",
              .str "youtube"]),
            ("description", .str "\u041b\u0438\u0446\u0435\u043d\u0437\u0438\u044f \u0432\u0438\u0434\u0435\u043e")])]),
        ("required", .arr [
          .str "query"])])],
    .obj [
      ("name", .str "ddg_search_books"),
      ("description", .str "\u041f\u043e\u0438\u0441\u043a \u043a\u043d\u0438\u0433 \u0447\u0435\u0440\u0435\u0437 DuckDuckGo Books"),
      ("inputSchema", .obj [
        ("type", .str "object"),
        ("properties", .obj [
          ("query", .obj [
            ("type", .str "string"),
            ("description", .str "\u041f\u043e\u0438\u0441\u043a\u043e\u0432\u044b\u0439 \u0437\u0430\u043f\u0440\u043e\u0441 \u0434\u043b\u044f \u043a\u043d\u0438\u0433")]),
          ("max_results", .obj [
            ("type", .str "integer"),
            ("default", .num 10),
            ("minimum", .num 1),
            ("maximum", .num 50)]),
          ("page", .obj [
            ("type", .str "integer"),
            ("default", .num 1)]),
          ("backend", .obj [
            ("type", .str "string"),
            ("default", .str "auto")])]),
        ("required", .arr [
          .str "query"])])],
    .obj [
      ("name", .str "ddg_search_operators"),
      ("description", .str "\u041f\u043e\u043b\u0443\u0447\u0438\u0442\u044c \u0434\u043e\u043a\u0443\u043c\u0435\u043d\u0442\u0430\u0446\u0438\u044e \u043f\u043e \u043e\u043f\u0435\u0440\u0430\u0442\u043e\u0440\u0430\u043c \u043f\u043e\u0438\u0441\u043a\u0430 DDG"),
      ("inputSchema", .obj [
        ("type", .str "object"),
        ("properties", .obj [])])]]

/- ### json.dumps with indent=2 (used for tools/call result payloads) -/

mutual

/-- Serialization per `json.dumps(x, ensure_ascii=False, indent=2)` at a given
indentation level (in spaces); with an indent the default item separator is a
bare comma before a newline. -/
def dumpsInd : Nat → Json → List Char
  | _, .null => "null".data
  | _, .bool true => "true".data
  | _, .bool false => "false".data
  | _, .num n => intToChars n
  | _, .str s => '"' :: (escapeString s.data ++ ['"'])
  | _, .arr [] => ['[', ']']
  | lvl, .arr (x :: xs) =>
    '[' :: '\n' :: (List.replicate (lvl + 2) ' ' ++ dumpsInd (lvl + 2) x ++
      dumpsIndElems (lvl + 2) xs ++ '\n' :: (List.replicate lvl ' ' ++ [']']))
  | _, .obj [] => ['{', '}']
  | lvl, .obj ((k, v) :: kvs) =>
    '{' :: '\n' :: (List.replicate (lvl + 2) ' ' ++
      '"' :: (escapeString k.data ++ '"' :: ':' :: ' ' :: dumpsInd (lvl + 2) v) ++
      dumpsIndMembers (lvl + 2) kvs ++ '\n' :: (List.replicate lvl ' ' ++ ['}']))

def dumpsIndElems : Nat → List Json → List Char
  | _, [] => []
  | lvl, x :: xs =>
    ',' :: '\n' :: (List.replicate lvl ' ' ++ dumpsInd lvl x ++
      dumpsIndElems lvl xs)

def dumpsIndMembers : Nat → List (String × Json) → List Char
  | _, [] => []
  | lvl, (k, v) :: kvs =>
    ',' :: '\n' :: (List.replicate lvl ' ' ++
      '"' :: (escapeString k.data ++ '"' :: ':' :: ' ' :: dumpsInd lvl v) ++
      dumpsIndMembers lvl kvs)

end

/-- Python `json.dumps(x, ensure_ascii=False, indent=2)`. -/
def dumpsIndent2 (j : Json) : String := String.mk (dumpsInd 0 j)

/- ### Dispatcher (`handle_request`, ddg_mcp_server.py lines 566-917) -/

/-- Rendering of a Python value interpolated into an f-string via `str`;
exact for the cases the claims exercise (a string renders as itself, a
missing value / JSON null as None, booleans capitalized, integers in
decimal); container renderings are abbreviated, as no claim inspects a
message built from one. -/
def pyStr : Option Json → String
  | none => "None"
  | some .null => "None"
  | some (.bool true) => "True"
  | some (.bool false) => "False"
  | some (.num n) => String.mk (intToChars n)
  | some (.str s) => s
  | some (.arr _) => "[...]"
  | some (.obj _) => "..."

/-- Abstraction of the five DDGS-backed search functions (`search_text`,
`search_news`, `search_images`, `search_videos`, `search_books`): given the
tool name and the keyword-argument dict, returns the JSON result list, or an
exception message (`Except.error` models a raised Python exception, including
a keyword-argument mismatch at the call).  DDGS is an external collaborator
(spec section 6); no claim depends on its behavior, which is why it is a
parameter. -/
def Provider : Type := String → List (String × Json) → Except String Json

/-- Response skeleton shared by every branch of `handle_request`: a dict that
starts with the jsonrpc version tag and the request id. -/
def jsonrpcResponse (request_id : Json) (rest : List (String × Json)) : Json :=
  .obj (("jsonrpc", .str "2.0") :: ("id", request_id) :: rest)

/-- An error response with the given code and message. -/
def errorResponse (request_id : Json) (code : Int) (message : String) : Json :=
  jsonrpcResponse request_id
    [("error", .obj [("code", .num code), ("message", .str message)])]

/-- A tools/call success response: one text content item. -/
def contentResponse (request_id : Json) (text : String) : Json :=
  jsonrpcResponse request_id
    [("result", .obj [("content",
      .arr [.obj [("type", .str "text"), ("text", .str text)]])])]

/-- The result payload of the initialize handshake (lines 603-620). -/
def initializeResult : Json :=
  .obj [("protocolVersion", .str "2024-11-05"),
    ("serverInfo", .obj [("name", .str "ddg-search"), ("version", .str "1.0.0")]),
    ("capabilities", .obj [("tools", .obj [])])]

/-- The five search tools subject to the common query validation
(line 773). -/
def searchToolNames : List String :=
  ["ddg_search_text", "ddg_search_news", "ddg_search_images",
    "ddg_search_videos", "ddg_search_books"]

/-- The invalid-params message for an empty search query (line 781). -/
def emptyQueryMessage (tool_name : String) : String :=
  "Пустой поисковый запрос для инструмента " ++ tool_name ++
    ". Пожалуйста, укажите непустое значение для параметра \x27query\x27."

/-- The -32602 response for an absent, empty or whitespace-only query
(lines 776-786), carrying the offending arguments as data. -/
def emptyQueryResponse (request_id : Json) (tool_name : String)
    (args : List (String × Json)) : Json :=
  jsonrpcResponse request_id
    [("error", .obj
      [("code", .num (-32602)),
        ("message", .str (emptyQueryMessage tool_name)),
        ("data", .obj [("arguments", .obj args)])])]

/-- Dispatch of a validated search tool call: `search_xxx(**arguments)`
succeeds with a result list serialized via `json.dumps(results,
ensure_ascii=False, indent=2)`, or raises, which the enclosing handler turns
into a -32603 response with the exception text (lines 788-867, 895-905). -/
def dispatchSearch (provider : Provider) (request_id : Json) (name : String)
    (args : List (String × Json)) : Json :=
  match provider name args with
  | .ok results => contentResponse request_id (dumpsIndent2 results)
  | .error msg => errorResponse request_id (-32603) msg

/-- The body of the tools/call try-block (lines 771-905).  Any exception
raised inside it is caught at line 895 and converted to a -32603 response, so
this function is total; an `AttributeError` message stands in for the text of
such an exception (no claim reads it). -/
def toolsCall (provider : Provider) (request_id : Json)
    (tool_name : Option Json) (argumentsJ : Json) : Json :=
  match tool_name with
  | some (.str name) =>
    if name ∈ searchToolNames then
      match argumentsJ with
      | .obj args =>
        match dictGet args "query" with
        | none => emptyQueryResponse request_id name args
        | some (.str q) =>
          if (pyStrip q).data = [] then emptyQueryResponse request_id name args
          else dispatchSearch provider request_id name args
        | some _ => errorResponse request_id (-32603) "AttributeError"
      | _ => errorResponse request_id (-32603) "AttributeError"
    else if name = "ddg_search_operators" then
      contentResponse request_id (dumpsIndent2 searchOperatorsJson)
    else errorResponse request_id (-32601) ("Unknown tool: " ++ name)
  | m => errorResponse request_id (-32601) ("Unknown tool: " ++ pyStr m)

/-- `handle_request` (ddg_mcp_server.py lines 566-917) over a request dict.
A Python exception escaping the function (only possible when `params` is not
a dict, so that `params.get` at line 767 raises before the try-block begins)
is modelled as `Except.error`. -/
def handle_request (provider : Provider) (request : List (String × Json)) :
    Except String (Option Json) :=
  match dictGet request "method" with
  | some (.str "client/registerCapability") =>
    .ok (some (jsonrpcResponse ((dictGet request "id").getD .null) [("result", .obj [])]))
  | some (.str "progress") => .ok none
  | some (.str "notifications/initialized") => .ok none
  | some (.str "initialize") =>
    .ok (some (jsonrpcResponse ((dictGet request "id").getD .null) [("result", initializeResult)]))
  | some (.str "resources/list") =>
    .ok (some (jsonrpcResponse ((dictGet request "id").getD .null)
      [("result", .obj [("resources", .arr [])])]))
  | some (.str "resources/templates/list") =>
    .ok (some (jsonrpcResponse ((dictGet request "id").getD .null)
      [("result", .obj [("resource_templates", .arr [])])]))
  | some (.str "tools/list") =>
    .ok (some (jsonrpcResponse ((dictGet request "id").getD .null)
      [("result", .obj [("tools", toolsListJson)])]))
  | some (.str "tools/call") =>
    match (dictGet request "params").getD (.obj []) with
    | .obj pkvs =>
      .ok (some (toolsCall provider ((dictGet request "id").getD .null) (dictGet pkvs "name")
        ((dictGet pkvs "arguments").getD (.obj []))))
    | _ => .error "AttributeError"
  | m =>
    .ok (some (errorResponse ((dictGet request "id").getD .null) (-32601)
      ("Method not found: " ++ pyStr m)))

/- ### STDIO connection loop (`main`, ddg_mcp_server.py lines 919-962) -/

/-- The request-processing loop of `main` over a finite byte stream,
returning the list of responses it writes via `send_message`.  A `None` from
`read_message` breaks the loop (line 932-935); a non-dict message or a `None`
response just continues; an exception from `handle_request` is caught at line
957 and the loop continues.  The fuel only bounds the iteration count (each
iteration consumes at least one byte of the stream) and `serverLoop` supplies
enough for any finite stream. -/
def serverLoopCore (provider : Provider) : Nat → List Nat → List Json
  | 0, _ => []
  | fuel + 1, stream =>
    match read_message stream with
    | (none, _) => []
    | (some message, rest) =>
      match message with
      | .obj kvs =>
        match handle_request provider kvs with
        | .ok (some response) => response :: serverLoopCore provider fuel rest
        | .ok none => serverLoopCore provider fuel rest
        | .error _ => serverLoopCore provider fuel rest
      | _ => serverLoopCore provider fuel rest

def serverLoop (provider : Provider) (stream : List Nat) : List Json :=
  serverLoopCore provider (stream.length + 1) stream

/- ### Text-repair engine (`fix_encoding`, ddg_mcp_server.py lines 153-282) -/

/-- The mojibake signature list `bad_patterns` (lines 175-186), transcribed
entry by entry (escaped code points match the source bytes exactly,
duplicated entries included). -/
def bad_patterns : List String := [
  "\u0420\u00b0",
  "\u0420\u00b1",
  "\u0420\u0406",
  "\u0420\u0456",
  "\u0420\u00b4",
  "\u0420\u00b5",
  "\u0420\u00b6",
  "\u0420\u00b7",
  "\u0420\u0438",
  "\u0420\u00b9",
  "\u0420\u0454",
  "\u0420\u00bb",
  "\u0420\u0458",
  "\u0420\u040d",
  "\u0420\u0455",
  "\u0420\u00bf",
  "\u0421\u0402",
  "\u0421\u0403",
  "\u0421\u201a",
  "\u0421\u0453",
  "\u0421\u201e",
  "\u0421\u2026",
  "\u0421\u2020",
  "\u0421\u2021",
  "\u0421\u20ac",
  "\u0421\u2030",
  "\u0421\u040c",
  "\u0421\u2039",
  "\u0421\u040d",
  "\u0421\u040e",
  "\u0421\u017d",
  "\u00d0",
  "\u00d1",
  "\u00c2",
  "\u00c3",
  "\u00e2",
  "\u00e7",
  "\u00a4",
  "\u00a6",
  "\u00a8",
  "\u00a9",
  "\u00aa",
  "\u00ab",
  "\u00ac",
  "\u00ae",
  "\u00b0",
  "\u00b1",
  "\u00b2",
  "\u00b3",
  "\u00c4",
  "\u00c5",
  "\u00c6",
  "\u00c7",
  "\u00c8",
  "\u00c9",
  "\u00ca",
  "\u00cb",
  "\u00cc",
  "\u00cd",
  "\u00ce",
  "\u00cf",
  "\u0420\u044c",
  "\u0420\u0455",
  "\u0420\u0406",
  "\u0421\u0403",
  "\u0421\u201a",
  "\u0420\u0438"]

/-- The replacement table of `manual_fix_russian_encoding` (lines 232-274),
in Python dict iteration (insertion) order. -/
def replacements : List (String × String) := [
  ("\u0420\u00b0", "\u0430"),
  ("\u0420\u00b1", "\u0431"),
  ("\u0420\u0406", "\u0432"),
  ("\u0420\u0456", "\u0433"),
  ("\u0420\u00b4", "\u0434"),
  ("\u0420\u00b5", "\u0435"),
  ("\u0420\u00b6", "\u0436"),
  ("\u0420\u00b7", "\u0437"),
  ("\u0420\u0438", "\u0438"),
  ("\u0420\u00b9", "\u0439"),
  ("\u0420\u0454", "\u043a"),
  ("\u0420\u00bb", "\u043b"),
  ("\u0420\u0458", "\u043c"),
  ("\u0420\u040d", "\u043d"),
  ("\u0420\u0455", "\u043e"),
  ("\u0420\u00bf", "\u043f"),
  ("\u0421\u0402", "\u0440"),
  ("\u0421\u0403", "\u0441"),
  ("\u0421\u201a", "\u0442"),
  ("\u0421\u0453", "\u0443"),
  ("\u0421\u201e", "\u0444"),
  ("\u0421\u2026", "\u0445"),
  ("\u0421\u2020", "\u0446"),
  ("\u0421\u2021", "\u0447"),
  ("\u0421\u20ac", "\u0448"),
  ("\u0421\u2030", "\u0449"),
  ("\u0421\u040c", "\u044c"),
  ("\u0421\u2039", "\u044b"),
  ("\u0421\u040d", "\u044d"),
  ("\u0421\u040e", "\u044e"),
  ("\u0421\u017d", "\u044f"),
  ("\u0420\u0106", "\u0410"),
  ("\u0420\u2018", "\u0411"),
  ("\u0420\u0412", "\u0412"),
  ("\u0420\u201d", "\u0413"),
  ("\u0420\u201e", "\u0414"),
  ("\u0420\u2026", "\u0415"),
  ("\u0420\u044c", "\u043d")]

/-- The upper half (bytes 0x80-0xFF) of the windows-1251 charmap codec as
byte/code-point pairs; positions the code page leaves undefined are absent
(the ignore error handler drops characters with no mapping). -/
def cp1251Table : List (Nat × Nat) := [
  (0x80, 0x0402), (0x81, 0x0403), (0x82, 0x201a), (0x83, 0x0453), (0x84, 0x201e),
  (0x85, 0x2026), (0x86, 0x2020), (0x87, 0x2021), (0x88, 0x20ac), (0x89, 0x2030),
  (0x8a, 0x0409), (0x8b, 0x2039), (0x8c, 0x040a), (0x8d, 0x040c), (0x8e, 0x040b),
  (0x8f, 0x040f), (0x90, 0x0452), (0x91, 0x2018), (0x92, 0x2019), (0x93, 0x201c),
  (0x94, 0x201d), (0x95, 0x2022), (0x96, 0x2013), (0x97, 0x2014), (0x99, 0x2122),
  (0x9a, 0x0459), (0x9b, 0x203a), (0x9c, 0x045a), (0x9d, 0x045c), (0x9e, 0x045b),
  (0x9f, 0x045f), (0xa0, 0x00a0), (0xa1, 0x040e), (0xa2, 0x045e), (0xa3, 0x0408),
  (0xa4, 0x00a4), (0xa5, 0x0490), (0xa6, 0x00a6), (0xa7, 0x00a7), (0xa8, 0x0401),
  (0xa9, 0x00a9), (0xaa, 0x0404), (0xab, 0x00ab), (0xac, 0x00ac), (0xad, 0x00ad),
  (0xae, 0x00ae), (0xaf, 0x0407), (0xb0, 0x00b0), (0xb1, 0x00b1), (0xb2, 0x0406),
  (0xb3, 0x0456), (0xb4, 0x0491), (0xb5, 0x00b5), (0xb6, 0x00b6), (0xb7, 0x00b7),
  (0xb8, 0x0451), (0xb9, 0x2116), (0xba, 0x0454), (0xbb, 0x00bb), (0xbc, 0x0458),
  (0xbd, 0x0405), (0xbe, 0x0455), (0xbf, 0x0457), (0xc0, 0x0410), (0xc1, 0x0411),
  (0xc2, 0x0412), (0xc3, 0x0413), (0xc4, 0x0414), (0xc5, 0x0415), (0xc6, 0x0416),
  (0xc7, 0x0417), (0xc8, 0x0418), (0xc9, 0x0419), (0xca, 0x041a), (0xcb, 0x041b),
  (0xcc, 0x041c), (0xcd, 0x041d), (0xce, 0x041e), (0xcf, 0x041f), (0xd0, 0x0420),
  (0xd1, 0x0421), (0xd2, 0x0422), (0xd3, 0x0423), (0xd4, 0x0424), (0xd5, 0x0425),
  (0xd6, 0x0426), (0xd7, 0x0427), (0xd8, 0x0428), (0xd9, 0x0429), (0xda, 0x042a),
  (0xdb, 0x042b), (0xdc, 0x042c), (0xdd, 0x042d), (0xde, 0x042e), (0xdf, 0x042f),
  (0xe0, 0x0430), (0xe1, 0x0431), (0xe2, 0x0432), (0xe3, 0x0433), (0xe4, 0x0434),
  (0xe5, 0x0435), (0xe6, 0x0436), (0xe7, 0x0437), (0xe8, 0x0438), (0xe9, 0x0439),
  (0xea, 0x043a), (0xeb, 0x043b), (0xec, 0x043c), (0xed, 0x043d), (0xee, 0x043e),
  (0xef, 0x043f), (0xf0, 0x0440), (0xf1, 0x0441), (0xf2, 0x0442), (0xf3, 0x0443),
  (0xf4, 0x0444), (0xf5, 0x0445), (0xf6, 0x0446), (0xf7, 0x0447), (0xf8, 0x0448),
  (0xf9, 0x0449), (0xfa, 0x044a), (0xfb, 0x044b), (0xfc, 0x044c), (0xfd, 0x044d),
  (0xfe, 0x044e), (0xff, 0x044f)]

/-- The upper half (bytes 0x80-0xFF) of the windows-1252 charmap codec as
byte/code-point pairs; positions the code page leaves undefined are absent
(the ignore error handler drops characters with no mapping). -/
def cp1252Table : List (Nat × Nat) := [
  (0x80, 0x20ac), (0x82, 0x201a), (0x83, 0x0192), (0x84, 0x201e), (0x85, 0x2026),
  (0x86, 0x2020), (0x87, 0x2021), (0x88, 0x02c6), (0x89, 0x2030), (0x8a, 0x0160),
  (0x8b, 0x2039), (0x8c, 0x0152), (0x8e, 0x017d), (0x91, 0x2018), (0x92, 0x2019),
  (0x93, 0x201c), (0x94, 0x201d), (0x95, 0x2022), (0x96, 0x2013), (0x97, 0x2014),
  (0x98, 0x02dc), (0x99, 0x2122), (0x9a, 0x0161), (0x9b, 0x203a), (0x9c, 0x0153),
  (0x9e, 0x017e), (0x9f, 0x0178), (0xa0, 0x00a0), (0xa1, 0x00a1), (0xa2, 0x00a2),
  (0xa3, 0x00a3), (0xa4, 0x00a4), (0xa5, 0x00a5), (0xa6, 0x00a6), (0xa7, 0x00a7),
  (0xa8, 0x00a8), (0xa9, 0x00a9), (0xaa, 0x00aa), (0xab, 0x00ab), (0xac, 0x00ac),
  (0xad, 0x00ad), (0xae, 0x00ae), (0xaf, 0x00af), (0xb0, 0x00b0), (0xb1, 0x00b1),
  (0xb2, 0x00b2), (0xb3, 0x00b3), (0xb4, 0x00b4), (0xb5, 0x00b5), (0xb6, 0x00b6),
  (0xb7, 0x00b7), (0xb8, 0x00b8), (0xb9, 0x00b9), (0xba, 0x00ba), (0xbb, 0x00bb),
  (0xbc, 0x00bc), (0xbd, 0x00bd), (0xbe, 0x00be), (0xbf, 0x00bf), (0xc0, 0x00c0),
  (0xc1, 0x00c1), (0xc2, 0x00c2), (0xc3, 0x00c3), (0xc4, 0x00c4), (0xc5, 0x00c5),
  (0xc6, 0x00c6), (0xc7, 0x00c7), (0xc8, 0x00c8), (0xc9, 0x00c9), (0xca, 0x00ca),
  (0xcb, 0x00cb), (0xcc, 0x00cc), (0xcd, 0x00cd), (0xce, 0x00ce), (0xcf, 0x00cf),
  (0xd0, 0x00d0), (0xd1, 0x00d1), (0xd2, 0x00d2), (0xd3, 0x00d3), (0xd4, 0x00d4),
  (0xd5, 0x00d5), (0xd6, 0x00d6), (0xd7, 0x00d7), (0xd8, 0x00d8), (0xd9, 0x00d9),
  (0xda, 0x00da), (0xdb, 0x00db), (0xdc, 0x00dc), (0xdd, 0x00dd), (0xde, 0x00de),
  (0xdf, 0x00df), (0xe0, 0x00e0), (0xe1, 0x00e1), (0xe2, 0x00e2), (0xe3, 0x00e3),
  (0xe4, 0x00e4), (0xe5, 0x00e5), (0xe6, 0x00e6), (0xe7, 0x00e7), (0xe8, 0x00e8),
  (0xe9, 0x00e9), (0xea, 0x00ea), (0xeb, 0x00eb), (0xec, 0x00ec), (0xed, 0x00ed),
  (0xee, 0x00ee), (0xef, 0x00ef), (0xf0, 0x00f0), (0xf1, 0x00f1), (0xf2, 0x00f2),
  (0xf3, 0x00f3), (0xf4, 0x00f4), (0xf5, 0x00f5), (0xf6, 0x00f6), (0xf7, 0x00f7),
  (0xf8, 0x00f8), (0xf9, 0x00f9), (0xfa, 0x00fa), (0xfb, 0x00fb), (0xfc, 0x00fc),
  (0xfd, 0x00fd), (0xfe, 0x00fe), (0xff, 0x00ff)]

/-- Encoding of one character under windows-1251: ASCII passes through, the
upper half is the reverse lookup of `cp1251Table`; `none` for an unmappable
character. -/
def encodeCp1251Char (c : Char) : Option Nat :=
  if c.toNat < 0x80 then some c.toNat
  else (cp1251Table.find? (fun p => p.2 == c.toNat)).map Prod.fst

/-- Encoding of one character under iso-8859-1 (latin-1): the identity on
code points up to 0xFF. -/
def encodeLatin1Char (c : Char) : Option Nat :=
  if c.toNat ≤ 0xFF then some c.toNat else none

/-- Encoding of one character under windows-1252. -/
def encodeCp1252Char (c : Char) : Option Nat :=
  if c.toNat < 0x80 then some c.toNat
  else (cp1252Table.find? (fun p => p.2 == c.toNat)).map Prod.fst

/-- Python `str.encode(codec, errors='ignore')`: unmappable characters are
dropped. -/
def pyEncodeIgnore (enc : Char → Option Nat) (s : List Char) : List Nat :=
  s.filterMap enc

/-- Python substring containment, `pattern in text`. -/
def containsSub (s pat : List Char) : Bool :=
  match s with
  | [] => pat.isEmpty
  | _ :: cs => pat.isPrefixOf s || containsSub cs pat

/-- Python `str.replace(pat, rep)`: left-to-right, non-overlapping.  The
empty-pattern case (never exercised: every table key is nonempty) is the
identity.  The fuel argument only bounds the recursion depth (each step
consumes at least one character, so the input length is always enough). -/
def replaceListF : Nat → List Char → List Char → List Char → List Char
  | 0, s, _, _ => s
  | _ + 1, [], _, _ => []
  | fuel + 1, c :: cs, pat, rep =>
    if pat ≠ [] ∧ pat.isPrefixOf (c :: cs) then
      rep ++ replaceListF fuel ((c :: cs).drop pat.length) pat rep
    else c :: replaceListF fuel cs pat rep

def replaceList (s pat rep : List Char) : List Char :=
  replaceListF s.length s pat rep

/-- `manual_fix_russian_encoding` (lines 230-282): apply every table
replacement in order.  (The source guards each replace with a containment
test, which is redundant: replacing an absent pattern is the identity.) -/
def manual_fix_russian_encoding (t : List Char) : List Char :=
  replacements.foldl (fun acc p => replaceList acc p.1.data p.2.data) t

/-- Count of lowercase or uppercase Russian Cyrillic letters, the source's
`sum(1 for c in fixed if 'а' <= c <= 'я' or 'А' <= c <= 'Я')`. -/
def cyrillicCount (s : List Char) : Nat :=
  (s.filter (fun c => decide (0x430 ≤ c.toNat ∧ c.toNat ≤ 0x44F) ||
    decide (0x410 ≤ c.toNat ∧ c.toNat ≤ 0x42F))).length

/-- The candidate quality measure of the selection loop (lines 213-214):
the fraction of Cyrillic characters, zero on empty input.  Python computes it
in floating point; it is modelled as an exact rational (the counts involved
are far from any rounding boundary). -/
def cyrillicFrac (s : List Char) : ℚ :=
  if s.length = 0 then 0 else (cyrillicCount s : ℚ) / (s.length : ℚ)

/-- Strategy 1 (line 194): reinterpret as windows-1251 bytes, decode as
UTF-8, ignoring errors on both sides. -/
def strategy1 (t : List Char) : List Char :=
  utf8DecodeIgnore (pyEncodeIgnore encodeCp1251Char t)

/-- Strategy 2 (line 196): the same through iso-8859-1. -/
def strategy2 (t : List Char) : List Char :=
  utf8DecodeIgnore (pyEncodeIgnore encodeLatin1Char t)

/-- Strategy 3 (line 198): the same through windows-1252. -/
def strategy3 (t : List Char) : List Char :=
  utf8DecodeIgnore (pyEncodeIgnore encodeCp1252Char t)

/-- Strategy 4 (line 200): a UTF-8 encode/decode round trip. -/
def strategy4 (t : List Char) : List Char :=
  utf8DecodeIgnore (utf8Encode t)

/-- The strategy list of `fix_encoding` (lines 192-203), in order. -/
def strategies : List (List Char → List Char) :=
  [strategy1, strategy2, strategy3, strategy4, manual_fix_russian_encoding]

/-- State of the selection loop: the best candidate so far and its ratio
(initially the working text with ratio 0, lines 205-206).  The ratio is kept
as an exact numerator/denominator pair of naturals (Cyrillic count over
length); the loop only ever compares ratios, which is done by
cross-multiplication, so no rational arithmetic is needed.  The denominator
is 1 for the initial zero ratio and the candidate's length (positive, since
only nonempty candidates are adopted) afterwards. -/
structure SelState where
  best_result : List Char
  ratio_num : Nat
  ratio_den : Nat

/-- The stored ratio of a selection state as a rational, for specification
purposes. -/
def stRat (st : SelState) : ℚ :=
  (st.ratio_num : ℚ) / (st.ratio_den : ℚ)

/-- One iteration of the selection loop (lines 208-222): a nonempty candidate
is adopted when its Cyrillic ratio strictly exceeds the best so far
(`count/len > num/den`, compared by cross-multiplication: the denominators
are positive here) and reaches the five percent floor
(`count/len ≥ 1/20`, i.e. `20*count ≥ len`). -/
def applyStrategy (t : List Char) (st : SelState)
    (strat : List Char → List Char) : SelState :=
  let fixed := strat t
  if fixed ≠ [] then
    if cyrillicCount fixed * st.ratio_den > st.ratio_num * fixed.length ∧
        20 * cyrillicCount fixed ≥ fixed.length then
      ⟨fixed, cyrillicCount fixed, fixed.length⟩
    else st
  else st

/-- Invariant of the selection loop: the denominator is positive, and the
state is either still the initial one (working text, zero ratio) or an
adopted candidate carrying its exact Cyrillic count and length, at or above
the five percent floor. -/
def selInv (w : List Char) (st : SelState) : Prop :=
  0 < st.ratio_den ∧
  (st.best_result = w ∧ st.ratio_num = 0 ∨
   st.best_result ≠ [] ∧ st.ratio_num = cyrillicCount st.best_result ∧
     st.ratio_den = st.best_result.length ∧
     st.ratio_den ≤ 20 * st.ratio_num)

/-- After the identity strategy has been scored: the invariant, plus the fact
that the best result scores at least the working text (and, when nothing was
ever adopted, the working text is below the floor). -/
def selGood (w : List Char) (st : SelState) : Prop :=
  selInv w st ∧ cyrillicFrac w ≤ cyrillicFrac st.best_result ∧
  (st.ratio_num = 0 → cyrillicFrac w < 1 / 20)

/-- Whether the working text triggers candidate generation (line 188):
`any(pattern in text for pattern in bad_patterns)`. -/
def corruptionDetected (s : List Char) : Bool :=
  bad_patterns.any (fun p => containsSub s p.data)

/-- `fix_encoding` (ddg_mcp_server.py lines 153-228).  The external
`ftfy.fix_text` collaborator is the parameter `ftfyFix`; per lines 160-172
its output becomes the working text only when it differs from the input and
contains at least one Cyrillic letter.  When a corruption signature is
present, the five strategies are scored and the loop's best result is
returned (which is the working text itself when no candidate was accepted,
making the final lines 224-228 equivalent to returning `best_result`). -/
def fix_encoding (ftfyFix : String → String) (text : String) : String :=
  if text.data = [] then text
  else
    let fixed_by_ftfy := ftfyFix text
    let working :=
      if fixed_by_ftfy ≠ text ∧ 0 < cyrillicCount fixed_by_ftfy.data then
        fixed_by_ftfy
      else text
    if corruptionDetected working.data then
      String.mk (strategies.foldl (applyStrategy working.data)
        ⟨working.data, 0, 1⟩).best_result
    else working

/- ### Properties stated by the spec but absent from the code, modelled from
the spec text for comparison, and concrete test vectors -/

/-- No two adjacent whitespace characters ("runs of whitespace collapsed to
single spaces"). -/
def noSpaceRun : List Char → Bool
  | [] => true
  | [_] => true
  | a :: b :: t => !(isPySpace a && isPySpace b) && noSpaceRun (b :: t)

/-- Necessary conditions for the final normalization the spec describes
having been applied to a string: no leading or trailing whitespace, no run
of whitespace, and no non-breaking space left.  (Modelled from the spec
text; the code has no such step.) -/
def specFinalNormalized (s : String) : Bool :=
  (match s.data with
   | [] => true
   | c :: _ => !isPySpace c) &&
  (match s.data.getLast? with
   | some c => !isPySpace c
   | none => true) &&
  noSpaceRun s.data &&
  s.data.all (fun c => decide (c.toNat ≠ 0xA0))

/-- The corruption-detection rule the spec describes, modelled from its
words: at least two distinct signature substrings occur within the first
500 characters. -/
def specCorruptionDeclared (s : List Char) : Bool :=
  decide (2 ≤ (bad_patterns.dedup.filter
    (fun p => containsSub (s.take 500) p.data)).length)

/-- A provider standing for the DDGS backend raising on every call. -/
def providerNA : Provider := fun _ _ => Except.error "backend unreachable"

/-- A frame whose declared length is well-formed but whose payload `hello`
is not JSON. -/
def badJsonFrame : List Nat := utf8Encode "5\nhello\n".data

/-- A well-formed initialize request. -/
def initRequestKvs : List (String × Json) :=
  [("jsonrpc", Json.str "2.0"), ("id", Json.num 1),
    ("method", Json.str "initialize")]

/-- The initialize request, framed as the client sends it. -/
def initFrame : List Nat := send_message (Json.obj initRequestKvs)

/-- A text on which every repair candidate scores at most the input's own
Cyrillic ratio (the best candidates tie with it). -/
def tieText : String := "РЅаа°!"

/-- A text whose repair is itself still repairable. -/
def unstableText : String := "Р В°Р°"

/- ### UTF-8 round-trip lemmas -/

theorem char_valid_ranges (c : Char) :
    c.toNat < 0xd800 ∨ (0xe000 ≤ c.toNat ∧ c.toNat < 0x110000) := by
  have h := c.valid
  simp [UInt32.isValidChar, Nat.isValidChar] at h
  exact h

theorem utf8DecodeStrict_encodeChar (c : Char) (r : List Nat) :
    utf8DecodeStrict (utf8EncodeChar c ++ r) =
      (utf8DecodeStrict r).map (fun cs => c :: cs) := by
  have hv := char_valid_ranges c
  have hc := Char.ofNat_toNat c
  unfold utf8EncodeChar
  by_cases h1 : c.toNat < 0x80
  · simp only [if_pos h1, List.cons_append, List.nil_append]
    rw [utf8DecodeStrict.eq_def]
    simp only [if_pos h1, hc]
  · by_cases h2 : c.toNat < 0x800
    · simp only [if_neg h1, if_pos h2, List.cons_append, List.nil_append]
      rw [utf8DecodeStrict.eq_def]
      simp only [if_neg (show ¬ 0xC0 + c.toNat / 0x40 < 0x80 by omega),
        if_pos (show 0xC2 ≤ 0xC0 + c.toNat / 0x40 ∧ 0xC0 + c.toNat / 0x40 ≤ 0xDF
          by omega),
        if_pos (show isCont (0x80 + c.toNat % 0x40) by unfold isCont; omega)]
      have harg : (0xC0 + c.toNat / 0x40 - 0xC0) * 0x40 +
          (0x80 + c.toNat % 0x40 - 0x80) = c.toNat := by omega
      rw [harg, hc]
    · by_cases h3 : c.toNat < 0x10000
      · simp only [if_neg h1, if_neg h2, if_pos h3, List.cons_append,
          List.nil_append]
        rw [utf8DecodeStrict.eq_def]
        simp only [if_neg (show ¬ 0xE0 + c.toNat / 0x1000 < 0x80 by omega),
          if_neg (show ¬ (0xC2 ≤ 0xE0 + c.toNat / 0x1000 ∧
            0xE0 + c.toNat / 0x1000 ≤ 0xDF) by omega),
          if_pos (show 0xE0 ≤ 0xE0 + c.toNat / 0x1000 ∧
            0xE0 + c.toNat / 0x1000 ≤ 0xEF by omega),
          if_pos (show firstCont3 (0xE0 + c.toNat / 0x1000)
              (0x80 + c.toNat / 0x40 % 0x40) by
            refine ⟨?_, ?_⟩
            · unfold lo3
              split_ifs <;> omega
            · unfold hi3
              split_ifs <;> omega),
          if_pos (show isCont (0x80 + c.toNat % 0x40) by unfold isCont; omega)]
        have harg : (0xE0 + c.toNat / 0x1000 - 0xE0) * 0x1000 +
            (0x80 + c.toNat / 0x40 % 0x40 - 0x80) * 0x40 +
            (0x80 + c.toNat % 0x40 - 0x80) = c.toNat := by omega
        rw [harg, hc]
      · simp only [if_neg h1, if_neg h2, if_neg h3, List.cons_append,
          List.nil_append]
        rw [utf8DecodeStrict.eq_def]
        simp only [if_neg (show ¬ 0xF0 + c.toNat / 0x40000 < 0x80 by omega),
          if_neg (show ¬ (0xC2 ≤ 0xF0 + c.toNat / 0x40000 ∧
            0xF0 + c.toNat / 0x40000 ≤ 0xDF) by omega),
          if_neg (show ¬ (0xE0 ≤ 0xF0 + c.toNat / 0x40000 ∧
            0xF0 + c.toNat / 0x40000 ≤ 0xEF) by omega),
          if_pos (show 0xF0 ≤ 0xF0 + c.toNat / 0x40000 ∧
            0xF0 + c.toNat / 0x40000 ≤ 0xF4 by omega),
          if_pos (show firstCont4 (0xF0 + c.toNat / 0x40000)
              (0x80 + c.toNat / 0x1000 % 0x40) by
            refine ⟨?_, ?_⟩
            · unfold lo4
              split_ifs <;> omega
            · unfold hi4
              split_ifs <;> omega),
          if_pos (show isCont (0x80 + c.toNat / 0x40 % 0x40) by
            unfold isCont; omega),
          if_pos (show isCont (0x80 + c.toNat % 0x40) by unfold isCont; omega)]
        have harg : (0xF0 + c.toNat / 0x40000 - 0xF0) * 0x40000 +
            (0x80 + c.toNat / 0x1000 % 0x40 - 0x80) * 0x1000 +
            (0x80 + c.toNat / 0x40 % 0x40 - 0x80) * 0x40 +
            (0x80 + c.toNat % 0x40 - 0x80) = c.toNat := by omega
        rw [harg, hc]

theorem utf8DecodeStrict_encode_append (cs : List Char) (r : List Nat) :
    utf8DecodeStrict (utf8Encode cs ++ r) =
      (utf8DecodeStrict r).map (fun tail => cs ++ tail) := by
  induction cs with
  | nil =>
    simp only [utf8Encode, List.nil_append]
    cases utf8DecodeStrict r <;> simp
  | cons c cs ih =>
    rw [utf8Encode, List.append_assoc, utf8DecodeStrict_encodeChar, ih]
    cases utf8DecodeStrict r <;> simp

/-- Strict decoding inverts UTF-8 encoding. -/
theorem utf8DecodeStrict_encode (cs : List Char) :
    utf8DecodeStrict (utf8Encode cs) = some cs := by
  have h := utf8DecodeStrict_encode_append cs []
  simpa [utf8DecodeStrict] using h

theorem utf8DecodeIgnoreF_nil (fuel : Nat) : utf8DecodeIgnoreF fuel [] = [] := by
  cases fuel <;> rfl

theorem utf8DecodeIgnoreF_encodeChar (fuel : Nat) (c : Char) (r : List Nat) :
    utf8DecodeIgnoreF (fuel + 1) (utf8EncodeChar c ++ r) =
      c :: utf8DecodeIgnoreF fuel r := by
  have hv := char_valid_ranges c
  have hc := Char.ofNat_toNat c
  unfold utf8EncodeChar
  by_cases h1 : c.toNat < 0x80
  · simp only [if_pos h1, List.cons_append, List.nil_append]
    rw [utf8DecodeIgnoreF.eq_def]
    simp only [if_pos h1, hc]
  · by_cases h2 : c.toNat < 0x800
    · simp only [if_neg h1, if_pos h2, List.cons_append, List.nil_append]
      rw [utf8DecodeIgnoreF.eq_def]
      simp only [if_neg (show ¬ 0xC0 + c.toNat / 0x40 < 0x80 by omega),
        if_pos (show 0xC2 ≤ 0xC0 + c.toNat / 0x40 ∧ 0xC0 + c.toNat / 0x40 ≤ 0xDF
          by omega),
        if_pos (show isCont (0x80 + c.toNat % 0x40) by unfold isCont; omega)]
      have harg : (0xC0 + c.toNat / 0x40 - 0xC0) * 0x40 +
          (0x80 + c.toNat % 0x40 - 0x80) = c.toNat := by omega
      rw [harg, hc]
    · by_cases h3 : c.toNat < 0x10000
      · simp only [if_neg h1, if_neg h2, if_pos h3, List.cons_append,
          List.nil_append]
        rw [utf8DecodeIgnoreF.eq_def]
        simp only [if_neg (show ¬ 0xE0 + c.toNat / 0x1000 < 0x80 by omega),
          if_neg (show ¬ (0xC2 ≤ 0xE0 + c.toNat / 0x1000 ∧
            0xE0 + c.toNat / 0x1000 ≤ 0xDF) by omega),
          if_pos (show 0xE0 ≤ 0xE0 + c.toNat / 0x1000 ∧
            0xE0 + c.toNat / 0x1000 ≤ 0xEF by omega),
          if_pos (show firstCont3 (0xE0 + c.toNat / 0x1000)
              (0x80 + c.toNat / 0x40 % 0x40) by
            refine ⟨?_, ?_⟩
            · unfold lo3
              split_ifs <;> omega
            · unfold hi3
              split_ifs <;> omega),
          if_pos (show isCont (0x80 + c.toNat % 0x40) by unfold isCont; omega)]
        have harg : (0xE0 + c.toNat / 0x1000 - 0xE0) * 0x1000 +
            (0x80 + c.toNat / 0x40 % 0x40 - 0x80) * 0x40 +
            (0x80 + c.toNat % 0x40 - 0x80) = c.toNat := by omega
        rw [harg, hc]
      · simp only [if_neg h1, if_neg h2, if_neg h3, List.cons_append,
          List.nil_append]
        rw [utf8DecodeIgnoreF.eq_def]
        simp only [if_neg (show ¬ 0xF0 + c.toNat / 0x40000 < 0x80 by omega),
          if_neg (show ¬ (0xC2 ≤ 0xF0 + c.toNat / 0x40000 ∧
            0xF0 + c.toNat / 0x40000 ≤ 0xDF) by omega),
          if_neg (show ¬ (0xE0 ≤ 0xF0 + c.toNat / 0x40000 ∧
            0xF0 + c.toNat / 0x40000 ≤ 0xEF) by omega),
          if_pos (show 0xF0 ≤ 0xF0 + c.toNat / 0x40000 ∧
            0xF0 + c.toNat / 0x40000 ≤ 0xF4 by omega),
          if_pos (show firstCont4 (0xF0 + c.toNat / 0x40000)
              (0x80 + c.toNat / 0x1000 % 0x40) by
            refine ⟨?_, ?_⟩
            · unfold lo4
              split_ifs <;> omega
            · unfold hi4
              split_ifs <;> omega),
          if_pos (show isCont (0x80 + c.toNat / 0x40 % 0x40) by
            unfold isCont; omega),
          if_pos (show isCont (0x80 + c.toNat % 0x40) by unfold isCont; omega)]
        have harg : (0xF0 + c.toNat / 0x40000 - 0xF0) * 0x40000 +
            (0x80 + c.toNat / 0x1000 % 0x40 - 0x80) * 0x1000 +
            (0x80 + c.toNat / 0x40 % 0x40 - 0x80) * 0x40 +
            (0x80 + c.toNat % 0x40 - 0x80) = c.toNat := by omega
        rw [harg, hc]

theorem utf8DecodeIgnoreF_encode_append (cs : List Char) (fuel : Nat)
    (r : List Nat) :
    utf8DecodeIgnoreF (cs.length + fuel) (utf8Encode cs ++ r) =
      cs ++ utf8DecodeIgnoreF fuel r := by
  induction cs with
  | nil => simp [utf8Encode]
  | cons c cs ih =>
    have hl : (c :: cs).length + fuel = (cs.length + fuel) + 1 := by
      simp only [List.length_cons]
      omega
    rw [hl, utf8Encode, List.append_assoc, utf8DecodeIgnoreF_encodeChar, ih]
    rfl

theorem utf8EncodeChar_length_pos (c : Char) :
    1 <= (utf8EncodeChar c).length := by
  unfold utf8EncodeChar
  split_ifs <;> simp

theorem utf8Encode_length_ge (cs : List Char) :
    cs.length <= (utf8Encode cs).length := by
  induction cs with
  | nil => simp [utf8Encode]
  | cons c cs ih =>
    rw [utf8Encode]
    simp only [List.length_append, List.length_cons]
    have := utf8EncodeChar_length_pos c
    omega

/-- Lossy decoding also inverts UTF-8 encoding (nothing is dropped on
well-formed input); this is Strategy 4 of `fix_encoding`. -/
theorem utf8DecodeIgnore_encode (cs : List Char) :
    utf8DecodeIgnore (utf8Encode cs) = cs := by
  unfold utf8DecodeIgnore
  obtain ⟨k, hk⟩ : ∃ k, (utf8Encode cs).length = cs.length + k :=
    ⟨(utf8Encode cs).length - cs.length, by
      have := utf8Encode_length_ge cs
      omega⟩
  rw [hk]
  have h := utf8DecodeIgnoreF_encode_append cs k []
  rw [List.append_nil] at h
  rw [h, utf8DecodeIgnoreF_nil, List.append_nil]

/- ### Character and digit lemmas -/

theorem charToNat_ofNat (m : Nat) (h : m < 0xD800) : (Char.ofNat m).toNat = m := by
  unfold Char.ofNat
  rw [dif_pos (Or.inl h)]
  rfl

theorem char_ne_of_toNat_ne {c d : Char} (h : c.toNat ≠ d.toNat) : c ≠ d :=
  fun he => h (by rw [he])

theorem char_eq_of_toNat_eq {c d : Char} (h : c.toNat = d.toNat) : c = d := by
  apply Char.eq_of_val_eq
  have hn : c.val.toNat = d.val.toNat := h
  cases hc : c.val
  cases hd : d.val
  rw [hc, hd] at hn
  congr 1
  exact BitVec.eq_of_toNat_eq hn

theorem isJsonWs_eq_false {c : Char} (h32 : c.toNat ≠ 32) (h9 : c.toNat ≠ 9)
    (h10 : c.toNat ≠ 10) (h13 : c.toNat ≠ 13) : isJsonWs c = false := by
  simp only [isJsonWs, Bool.or_eq_false_iff, beq_eq_false_iff_ne]
  exact ⟨⟨⟨char_ne_of_toNat_ne h32, char_ne_of_toNat_ne h9⟩,
    char_ne_of_toNat_ne h10⟩, char_ne_of_toNat_ne h13⟩

theorem skipWs_cons_not_ws {c : Char} (h : isJsonWs c = false) (cs : List Char) :
    skipWs (c :: cs) = c :: cs := by
  simp [skipWs, h]

theorem natDigitsF_congr : ∀ fuel fuel' n, n ≤ fuel → n ≤ fuel' →
    natDigitsF fuel n = natDigitsF fuel' n := by
  intro fuel
  induction fuel with
  | zero =>
    intro fuel' n h h'
    have hn : n = 0 := by omega
    subst hn
    cases fuel' <;> simp [natDigitsF]
  | succ fuel ih =>
    intro fuel' n h h'
    cases fuel' with
    | zero =>
      have hn : n = 0 := by omega
      subst hn
      simp [natDigitsF]
    | succ fuel' =>
      by_cases h10 : n < 10
      · simp [natDigitsF, h10]
      · simp only [natDigitsF, if_neg h10]
        rw [ih fuel' (n / 10) (by omega) (by omega)]

/-- The recursion equation of `natDigits`, independent of the fuel. -/
theorem natDigits_eq (n : Nat) : natDigits n =
    if n < 10 then [Char.ofNat (48 + n)]
    else natDigits (n / 10) ++ [Char.ofNat (48 + n % 10)] := by
  unfold natDigits
  by_cases h : n < 10
  · rw [if_pos h]
    cases n with
    | zero => rfl
    | succ m => simp [natDigitsF, h]
  · rw [if_neg h]
    obtain ⟨m, hm⟩ : ∃ m, n = m + 1 := ⟨n - 1, by omega⟩
    subst hm
    simp only [natDigitsF, if_neg h]
    rw [natDigitsF_congr m ((m + 1) / 10) ((m + 1) / 10) (by omega) (by omega)]

theorem natDigits_ne_nil (n : Nat) : natDigits n ≠ [] := by
  rw [natDigits_eq]
  split_ifs <;> simp

theorem natDigits_all_digit (n : Nat) :
    ∀ c ∈ natDigits n, isDigitChar c = true := by
  induction n using Nat.strong_induction_on with
  | _ n ih =>
    rw [natDigits_eq]
    split_ifs with h
    · intro c hc
      simp only [List.mem_singleton] at hc
      subst hc
      simp only [isDigitChar, Bool.and_eq_true, decide_eq_true_eq,
        charToNat_ofNat _ (by omega : 48 + n < 0xD800)]
      omega
    · intro c hc
      rcases List.mem_append.mp hc with hc | hc
      · exact ih (n / 10) (by omega) c hc
      · simp only [List.mem_singleton] at hc
        subst hc
        simp only [isDigitChar, Bool.and_eq_true, decide_eq_true_eq,
          charToNat_ofNat _ (by omega : 48 + n % 10 < 0xD800)]
        omega

theorem natDigits_head (n : Nat) (h : 1 ≤ n) :
    ∃ c t, natDigits n = c :: t ∧ 49 ≤ c.toNat ∧ c.toNat ≤ 57 := by
  induction n using Nat.strong_induction_on with
  | _ n ih =>
    rw [natDigits_eq]
    split_ifs with hlt
    · exact ⟨_, _, rfl, by rw [charToNat_ofNat _ (by omega)]; omega,
        by rw [charToNat_ofNat _ (by omega)]; omega⟩
    · obtain ⟨c, t, he, h1, h2⟩ := ih (n / 10) (by omega) (by omega)
      exact ⟨c, t ++ [Char.ofNat (48 + n % 10)], by rw [he]; rfl, h1, h2⟩

theorem takeDigits_no_digit {r : List Char} (h : headIsDigit r = false)
    (acc : Nat) : takeDigits acc r = (acc, r) := by
  cases r with
  | nil => rfl
  | cons c cs =>
    simp only [headIsDigit] at h
    simp [takeDigits, h]

theorem takeDigits_append {ds : List Char} (hd : ∀ c ∈ ds, isDigitChar c = true)
    (acc : Nat) (r : List Char) :
    takeDigits acc (ds ++ r) = takeDigits (digitsVal acc ds) r := by
  induction ds generalizing acc with
  | nil => simp [digitsVal]
  | cons c cs ih =>
    have hc : isDigitChar c = true := hd c (List.mem_cons_self c cs)
    simp only [List.cons_append, takeDigits, hc, if_pos, List.append_eq]
    rw [ih (fun x hx => hd x (List.mem_cons_of_mem c hx))]
    rfl

theorem digitsVal_natDigits (n : Nat) (acc : Nat) :
    digitsVal acc (natDigits n) = acc * 10 ^ (natDigits n).length + n := by
  induction n using Nat.strong_induction_on generalizing acc with
  | _ n ih =>
    rw [natDigits_eq]
    split_ifs with h
    · simp only [digitsVal, List.foldl_cons, List.foldl_nil, List.length_singleton,
        pow_one, charToNat_ofNat _ (by omega : 48 + n < 0xD800)]
      omega
    · simp only [digitsVal, List.foldl_append, List.foldl_cons, List.foldl_nil,
        List.length_append, List.length_singleton]
      have h1 := ih (n / 10) (by omega) acc
      simp only [digitsVal] at h1
      rw [h1, charToNat_ofNat _ (by omega : 48 + n % 10 < 0xD800)]
      rw [pow_succ]
      have : (48 + n % 10 - 48) = n % 10 := by omega
      rw [this]
      ring_nf
      omega

theorem digitsVal_cons (acc : Nat) (c : Char) (t : List Char) :
    digitsVal acc (c :: t) = digitsVal (acc * 10 + (c.toNat - 48)) t := rfl

theorem parseNumBody_natDigits (n : Nat) (r : List Char)
    (hr : headIsDigit r = false) :
    parseNumBody (natDigits n ++ r) = some (n, r) := by
  by_cases h0 : n = 0
  · subst h0
    rw [natDigits_eq, if_pos (by omega)]
    have h48 : Char.ofNat (48 + 0) = '0' := by decide
    rw [h48]
    simp [parseNumBody]
  · obtain ⟨c, t, he, hc1, hc2⟩ := natDigits_head n (by omega)
    rw [he]
    simp only [List.cons_append, parseNumBody]
    rw [if_neg (show ¬ (c = '0') from fun hce => absurd hc1
      (by rw [hce]; decide)), if_pos (by omega)]
    rw [takeDigits_append (fun x hx => natDigits_all_digit n x
      (he ▸ List.mem_cons_of_mem c hx))]
    rw [takeDigits_no_digit hr]
    have hv := digitsVal_natDigits n 0
    rw [he, digitsVal_cons] at hv
    simp only [Nat.zero_mul, Nat.zero_add] at hv
    rw [hv]

theorem parseNum_intToChars (n : Int) (r : List Char)
    (hr : headIsDigit r = false) :
    parseNum (intToChars n ++ r) = some (n, r) := by
  unfold intToChars
  split_ifs with hneg
  · simp only [List.cons_append, parseNum, if_true]
    rw [parseNumBody_natDigits _ _ hr]
    simp only [Option.map_some']
    have habs : ((n.natAbs : Int)) = -n := Int.ofNat_natAbs_of_nonpos (by omega)
    rw [habs, neg_neg]
  · obtain ⟨c, t, he⟩ : ∃ c t, natDigits n.toNat = c :: t := by
      cases hnd : natDigits n.toNat with
      | nil => exact absurd hnd (natDigits_ne_nil _)
      | cons c t => exact ⟨c, t, rfl⟩
    have hdig : isDigitChar c = true :=
      natDigits_all_digit n.toNat c (he ▸ List.mem_cons_self c t)
    have hct : 48 ≤ c.toNat ∧ c.toNat ≤ 57 := by
      simp only [isDigitChar, Bool.and_eq_true, decide_eq_true_eq] at hdig
      exact hdig
    rw [he]
    simp only [List.cons_append, parseNum]
    rw [if_neg (show ¬ (c = '-') from fun hce => absurd hct
      (by rw [hce]; decide))]
    rw [show (c :: (t ++ r)) = (c :: t) ++ r from rfl, ← he,
      parseNumBody_natDigits _ _ hr]
    simp only [Option.map_some']
    rw [Int.toNat_of_nonneg (by omega)]

theorem hexVal_hexDigit (n : Nat) (h : n < 16) : hexVal (hexDigit n) = some n := by
  unfold hexDigit
  split_ifs with h10
  · unfold hexVal
    rw [charToNat_ofNat _ (by omega)]
    rw [if_pos (by omega)]
    congr 1
    omega
  · unfold hexVal
    rw [charToNat_ofNat _ (by omega)]
    rw [if_neg (by omega), if_pos (by omega)]
    congr 1
    omega

/- ### parseStr step lemmas -/

theorem parseStrF_quote (fuel : Nat) (r : List Char) :
    parseStrF (fuel + 1) ('"' :: r) = some ([], r) := by
  simp only [parseStrF, if_true]

theorem parseStrF_plain {c : Char} (h1 : ¬ c = '"') (h2 : ¬ c = '\\')
    (h3 : ¬ c.toNat < 0x20) (fuel : Nat) (cs : List Char) :
    parseStrF (fuel + 1) (c :: cs) =
      (parseStrF fuel cs).map (fun p => (c :: p.1, p.2)) := by
  simp only [parseStrF]
  rw [if_neg h1, if_neg h2, if_neg h3]

theorem parseStrF_esc {e d : Char} (he : ¬ e = 'u') (hd : escDecode e = some d)
    (fuel : Nat) (cs : List Char) :
    parseStrF (fuel + 1) ('\\' :: e :: cs) =
      (parseStrF fuel cs).map (fun p => (d :: p.1, p.2)) := by
  simp only [parseStrF, if_true, if_false]
  rw [if_neg he, hd, if_neg (show ¬ (('\\' : Char) = '"') by decide)]

theorem parseStrF_u {d1 d2 d3 d4 : Char} {v1 v2 v3 v4 : Nat}
    (h1 : hexVal d1 = some v1) (h2 : hexVal d2 = some v2)
    (h3 : hexVal d3 = some v3) (h4 : hexVal d4 = some v4)
    (hval : v1 * 0x1000 + v2 * 0x100 + v3 * 0x10 + v4 < 0xD800
      ∨ 0xE000 ≤ v1 * 0x1000 + v2 * 0x100 + v3 * 0x10 + v4)
    (fuel : Nat) (cs : List Char) :
    parseStrF (fuel + 1) ('\\' :: 'u' :: d1 :: d2 :: d3 :: d4 :: cs) =
      (parseStrF fuel cs).map (fun p =>
        (Char.ofNat (v1 * 0x1000 + v2 * 0x100 + v3 * 0x10 + v4) :: p.1, p.2)) := by
  simp only [parseStrF, if_true, if_false, h1, h2, h3, h4]
  rw [if_pos hval, if_neg (show ¬ (('\\' : Char) = '"') by decide)]

theorem parseStrF_escape (s : List Char) :
    ∀ fuel r, s.length + 1 ≤ fuel →
    parseStrF fuel (escapeString s ++ '"' :: r) = some (s, r) := by
  induction s with
  | nil =>
    intro fuel r hf
    obtain ⟨f, rfl⟩ : ∃ f, fuel = f + 1 := ⟨fuel - 1, by omega⟩
    simpa [escapeString] using parseStrF_quote f r
  | cons c cs ih =>
    intro fuel r hf
    obtain ⟨f, rfl⟩ : ∃ f, fuel = f + 1 := ⟨fuel - 1, by omega⟩
    have hfc : cs.length + 1 ≤ f := by
      simp only [List.length_cons] at hf
      omega
    have hv := char_valid_ranges c
    simp only [escapeString, List.append_assoc]
    unfold escapeChar
    split_ifs with hq hbs hb hf2 hn hcr ht hctl
    · subst hq
      simp only [List.cons_append, List.nil_append]
      rw [parseStrF_esc (by decide) (show escDecode '"' = some '"' by decide),
        ih f r hfc]
      rfl
    · subst hbs
      simp only [List.cons_append, List.nil_append]
      rw [parseStrF_esc (by decide) (show escDecode '\\' = some '\\' by decide),
        ih f r hfc]
      rfl
    · subst hb
      simp only [List.cons_append, List.nil_append]
      rw [parseStrF_esc (by decide) (show escDecode 'b' = some '\x08' by decide),
        ih f r hfc]
      rfl
    · subst hf2
      simp only [List.cons_append, List.nil_append]
      rw [parseStrF_esc (by decide) (show escDecode 'f' = some '\x0c' by decide),
        ih f r hfc]
      rfl
    · subst hn
      simp only [List.cons_append, List.nil_append]
      rw [parseStrF_esc (by decide) (show escDecode 'n' = some '\n' by decide),
        ih f r hfc]
      rfl
    · subst hcr
      simp only [List.cons_append, List.nil_append]
      rw [parseStrF_esc (by decide) (show escDecode 'r' = some '\r' by decide),
        ih f r hfc]
      rfl
    · subst ht
      simp only [List.cons_append, List.nil_append]
      rw [parseStrF_esc (by decide) (show escDecode 't' = some '\t' by decide),
        ih f r hfc]
      rfl
    · simp only [List.cons_append, List.nil_append]
      rw [parseStrF_u (show hexVal '0' = some 0 by decide)
        (show hexVal '0' = some 0 by decide)
        (hexVal_hexDigit (c.toNat / 16) (by omega))
        (hexVal_hexDigit (c.toNat % 16) (by omega))
        (by omega), ih f r hfc]
      have harg : 0 * 0x1000 + 0 * 0x100 + c.toNat / 16 * 0x10 + c.toNat % 16 =
          c.toNat := by omega
      rw [harg, Char.ofNat_toNat]
      rfl
    · simp only [List.cons_append, List.nil_append]
      rw [parseStrF_plain hq hbs hctl, ih f r hfc]
      rfl

theorem escapeString_length (s : List Char) :
    s.length ≤ (escapeString s).length := by
  induction s with
  | nil => simp [escapeString]
  | cons c cs ih =>
    simp only [escapeString, List.length_append, List.length_cons]
    have : 1 ≤ (escapeChar c).length := by
      unfold escapeChar
      split_ifs <;> simp
    omega

theorem parseStr_escape (s : List Char) (r : List Char) :
    parseStr (escapeString s ++ '"' :: r) = some (s, r) := by
  unfold parseStr
  apply parseStrF_escape
  simp only [List.length_append, List.length_cons]
  have := escapeString_length s
  omega

/- ### Parser and serializer auxiliary lemmas -/

theorem fuelNeed_pos (j : Json) : 1 ≤ j.fuelNeed := by
  cases j <;> simp [Json.fuelNeed]

theorem parseVal_ws (fuel : Nat) {c : Char} (h : isJsonWs c = true)
    (cs : List Char) : parseVal fuel (c :: cs) = parseVal fuel cs := by
  cases fuel with
  | zero => rfl
  | succ f => simp only [parseVal, skipWs, h, if_true]

theorem parseElems_ws (fuel : Nat) {c : Char} (h : isJsonWs c = true)
    (cs : List Char) (acc : List Json) :
    parseElems fuel (c :: cs) acc = parseElems fuel cs acc := by
  cases fuel with
  | zero => rfl
  | succ f => simp only [parseElems, parseVal_ws f h]

theorem parseMembers_ws (fuel : Nat) {c : Char} (h : isJsonWs c = true)
    (cs : List Char) (acc : List (String × Json)) :
    parseMembers fuel (c :: cs) acc = parseMembers fuel cs acc := by
  cases fuel with
  | zero => rfl
  | succ f => simp only [parseMembers, skipWs, h, if_true]

theorem dumpChars_head (j : Json) :
    ∃ c t, j.dumpChars = c :: t ∧ isJsonWs c = false ∧ ¬ c = ']' ∧ ¬ c = '}' := by
  cases j with
  | num n =>
    simp only [Json.dumpChars]
    unfold intToChars
    split_ifs with hneg
    · exact ⟨'-', _, rfl, by decide⟩
    · obtain ⟨c, t, he⟩ : ∃ c t, natDigits n.toNat = c :: t := by
        cases hnd : natDigits n.toNat with
        | nil => exact absurd hnd (natDigits_ne_nil _)
        | cons c t => exact ⟨c, t, rfl⟩
      have hdig : isDigitChar c = true :=
        natDigits_all_digit n.toNat c (he ▸ List.mem_cons_self c t)
      have hct : 48 ≤ c.toNat ∧ c.toNat ≤ 57 := by
        simp only [isDigitChar, Bool.and_eq_true, decide_eq_true_eq] at hdig
        exact hdig
      exact ⟨c, t, he,
        isJsonWs_eq_false (by omega) (by omega) (by omega) (by omega),
        char_ne_of_toNat_ne (show c.toNat ≠ (']').toNat by
          show c.toNat ≠ 93; omega),
        char_ne_of_toNat_ne (show c.toNat ≠ ('}').toNat by
          show c.toNat ≠ 125; omega)⟩
  | null => exact ⟨'n', _, rfl, by decide⟩
  | bool b =>
    cases b with
    | false => exact ⟨'f', _, rfl, by decide⟩
    | true => exact ⟨'t', _, rfl, by decide⟩
  | str s => exact ⟨'"', _, rfl, by decide⟩
  | arr xs => exact ⟨'[', _, rfl, by decide⟩
  | obj kvs => exact ⟨'{', _, rfl, by decide⟩

theorem dumpElems_cons (x : Json) (xs : List Json) :
    ∃ t, dumpElems (x :: xs) = x.dumpChars ++ t := by
  cases xs with
  | nil => exact ⟨[], by simp [dumpElems]⟩
  | cons y ys => exact ⟨_, rfl⟩

theorem dumpMembers_cons (kv : String × Json) (kvs : List (String × Json)) :
    ∃ t, dumpMembers (kv :: kvs) = '"' :: t := by
  obtain ⟨k, v⟩ := kv
  cases kvs with
  | nil => exact ⟨_, rfl⟩
  | cons m ms => exact ⟨_, rfl⟩

theorem insertPair_fresh {acc : List (String × Json)} {k : String} (v : Json)
    (h : ∀ kv ∈ acc, kv.1 ≠ k) : insertPair acc k v = acc ++ [(k, v)] := by
  unfold insertPair
  rw [if_neg]
  intro hany
  rw [List.any_eq_true] at hany
  obtain ⟨kv, hmem, hbeq⟩ := hany
  exact h kv hmem (by simpa using hbeq)

theorem foldInsert_fresh :
    ∀ (kvs acc : List (String × Json)), (kvs.map Prod.fst).Nodup →
    (∀ kv ∈ acc, ∀ kw ∈ kvs, kv.1 ≠ kw.1) →
    foldInsert acc kvs = acc ++ kvs := by
  intro kvs
  induction kvs with
  | nil => intro acc _ _; simp [foldInsert]
  | cons kv kvs ih =>
    intro acc hnd hdisj
    have hstep : foldInsert acc (kv :: kvs) =
        foldInsert (insertPair acc kv.1 kv.2) kvs := rfl
    rw [hstep, insertPair_fresh kv.2
      (fun kw hw => hdisj kw hw kv (List.mem_cons_self kv kvs))]
    have hnd2 : (kvs.map Prod.fst).Nodup := by
      simp only [List.map_cons, List.nodup_cons] at hnd
      exact hnd.2
    have hknotin : kv.1 ∉ kvs.map Prod.fst := by
      simp only [List.map_cons, List.nodup_cons] at hnd
      exact hnd.1
    rw [ih (acc ++ [(kv.1, kv.2)]) hnd2 ?disj]
    case disj =>
      intro kw hw kw2 hw2
      rcases List.mem_append.mp hw with hw | hw
      · exact hdisj kw hw kw2 (List.mem_cons_of_mem kv hw2)
      · simp only [List.mem_singleton] at hw
        subst hw
        intro heq
        exact hknotin (heq ▸ List.mem_map_of_mem Prod.fst hw2)
    simp

theorem foldInsert_nil {kvs : List (String × Json)}
    (h : (kvs.map Prod.fst).Nodup) : foldInsert [] kvs = kvs := by
  rw [foldInsert_fresh kvs [] h (by simp)]
  simp

theorem intToChars_head (n : Int) :
    ∃ c t, intToChars n = c :: t ∧
      (c.toNat = 45 ∨ (48 ≤ c.toNat ∧ c.toNat ≤ 57)) := by
  unfold intToChars
  split_ifs with hneg
  · exact ⟨'-', _, rfl, Or.inl rfl⟩
  · obtain ⟨c, t, he⟩ : ∃ c t, natDigits n.toNat = c :: t := by
      cases hnd : natDigits n.toNat with
      | nil => exact absurd hnd (natDigits_ne_nil _)
      | cons c t => exact ⟨c, t, rfl⟩
    have hdig : isDigitChar c = true :=
      natDigits_all_digit n.toNat c (he ▸ List.mem_cons_self c t)
    have hct : 48 ≤ c.toNat ∧ c.toNat ≤ 57 := by
      simp only [isDigitChar, Bool.and_eq_true, decide_eq_true_eq] at hdig
      exact hdig
    exact ⟨c, t, he, Or.inr hct⟩

theorem parse_dump_roundtrip : ∀ fuel : Nat,
    (∀ j rest, Json.canonical j = true → j.fuelNeed ≤ fuel →
      headIsDigit rest = false →
      parseVal fuel (j.dumpChars ++ rest) = some (j, rest)) ∧
    (∀ xs acc rest, xs ≠ [] → canonicalElems xs = true →
      fuelNeedElems xs ≤ fuel →
      parseElems fuel (dumpElems xs ++ ']' :: rest) acc = some (acc ++ xs, rest)) ∧
    (∀ kvs acc rest, kvs ≠ [] → canonicalMembers kvs = true →
      fuelNeedMembers kvs ≤ fuel →
      parseMembers fuel (dumpMembers kvs ++ '}' :: rest) acc =
        some (foldInsert acc kvs, rest)) := by
  intro fuel
  induction fuel with
  | zero =>
    refine ⟨?_, ?_, ?_⟩
    · intro j rest _ hf _
      have := fuelNeed_pos j
      omega
    · intro xs acc rest hne _ hf
      cases xs with
      | nil => exact absurd rfl hne
      | cons x xs => simp only [fuelNeedElems] at hf; omega
    · intro kvs acc rest hne _ hf
      cases kvs with
      | nil => exact absurd rfl hne
      | cons kv kvs => simp only [fuelNeedMembers] at hf; omega
  | succ fuel ih =>
    obtain ⟨ih1, ih2, ih3⟩ := ih
    refine ⟨?_, ?_, ?_⟩
    · intro j rest hcan hf hrest
      cases j with
      | null =>
        simp only [Json.dumpChars, List.cons_append, List.nil_append]
        simp only [parseVal,
          skipWs_cons_not_ws (show isJsonWs 'n' = false by decide),
          if_neg (show ¬ (('n' : Char) = '{') by decide),
          if_neg (show ¬ (('n' : Char) = '[') by decide),
          if_neg (show ¬ (('n' : Char) = '"') by decide),
          if_true, expectChars, Option.map_some']
      | bool b =>
        cases b with
        | true =>
          simp only [Json.dumpChars, List.cons_append, List.nil_append]
          simp only [parseVal,
            skipWs_cons_not_ws (show isJsonWs 't' = false by decide),
            if_neg (show ¬ (('t' : Char) = '{') by decide),
            if_neg (show ¬ (('t' : Char) = '[') by decide),
            if_neg (show ¬ (('t' : Char) = '"') by decide),
            if_neg (show ¬ (('t' : Char) = 'n') by decide),
            if_true, expectChars, Option.map_some']
        | false =>
          simp only [Json.dumpChars, List.cons_append, List.nil_append]
          simp only [parseVal,
            skipWs_cons_not_ws (show isJsonWs 'f' = false by decide),
            if_neg (show ¬ (('f' : Char) = '{') by decide),
            if_neg (show ¬ (('f' : Char) = '[') by decide),
            if_neg (show ¬ (('f' : Char) = '"') by decide),
            if_neg (show ¬ (('f' : Char) = 'n') by decide),
            if_neg (show ¬ (('f' : Char) = 't') by decide),
            if_true, expectChars, Option.map_some']
      | num n =>
        simp only [Json.dumpChars]
        obtain ⟨c, t, he, hc⟩ := intToChars_head n
        rw [he]
        simp only [List.cons_append, parseVal,
          skipWs_cons_not_ws (@isJsonWs_eq_false c (by omega) (by omega)
            (by omega) (by omega)),
          if_neg (show ¬ (c = '{') from char_ne_of_toNat_ne
            (show c.toNat ≠ ('{').toNat by show c.toNat ≠ 123; omega)),
          if_neg (show ¬ (c = '[') from char_ne_of_toNat_ne
            (show c.toNat ≠ ('[').toNat by show c.toNat ≠ 91; omega)),
          if_neg (show ¬ (c = '"') from char_ne_of_toNat_ne
            (show c.toNat ≠ ('"').toNat by show c.toNat ≠ 34; omega)),
          if_neg (show ¬ (c = 'n') from char_ne_of_toNat_ne
            (show c.toNat ≠ ('n').toNat by show c.toNat ≠ 110; omega)),
          if_neg (show ¬ (c = 't') from char_ne_of_toNat_ne
            (show c.toNat ≠ ('t').toNat by show c.toNat ≠ 116; omega)),
          if_neg (show ¬ (c = 'f') from char_ne_of_toNat_ne
            (show c.toNat ≠ ('f').toNat by show c.toNat ≠ 102; omega))]
        rw [if_pos ?cond]
        case cond =>
          rcases hc with hc | hc
          · exact Or.inl (char_eq_of_toNat_eq (by rw [hc]; decide))
          · exact Or.inr (by
              simp only [isDigitChar, Bool.and_eq_true, decide_eq_true_eq]
              omega)
        rw [show (c :: (t ++ rest)) = (c :: t) ++ rest from rfl, ← he,
          parseNum_intToChars n rest hrest]
        simp only [Option.map_some']
      | str s =>
        simp only [Json.dumpChars, List.cons_append, List.append_assoc,
          List.nil_append]
        simp only [parseVal,
          skipWs_cons_not_ws (show isJsonWs '"' = false by decide),
          if_neg (show ¬ (('"' : Char) = '{') by decide),
          if_neg (show ¬ (('"' : Char) = '[') by decide),
          if_true]
        rw [parseStr_escape s.data rest]
        simp only [Option.map_some']
      | arr xs =>
        cases xs with
        | nil =>
          simp only [Json.dumpChars, dumpElems, List.nil_append,
            List.cons_append]
          simp only [parseVal,
            skipWs_cons_not_ws (show isJsonWs '[' = false by decide),
            if_neg (show ¬ (('[' : Char) = '{') by decide),
            if_true,
            skipWs_cons_not_ws (show isJsonWs ']' = false by decide)]
        | cons x xs =>
          simp only [Json.dumpChars, List.cons_append, List.append_assoc,
            List.nil_append]
          obtain ⟨t0, he0⟩ := dumpElems_cons x xs
          obtain ⟨c0, t1, hex, hws, hne1, hne2⟩ := dumpChars_head x
          have hL : dumpElems (x :: xs) ++ ']' :: rest =
              c0 :: (t1 ++ t0 ++ ']' :: rest) := by
            rw [he0, hex]
            simp [List.append_assoc]
          simp only [parseVal,
            skipWs_cons_not_ws (show isJsonWs '[' = false by decide),
            if_neg (show ¬ (('[' : Char) = '{') by decide),
            if_true]
          rw [hL, skipWs_cons_not_ws hws]
          simp only [if_neg hne1]
          rw [← hL]
          rw [ih2 (x :: xs) [] rest (by simp)
            (by simpa [Json.canonical] using hcan)
            (by simp only [Json.fuelNeed] at hf; omega)]
          simp
      | obj kvs =>
        cases kvs with
        | nil =>
          simp only [Json.dumpChars, dumpMembers, List.nil_append,
            List.cons_append]
          simp only [parseVal,
            skipWs_cons_not_ws (show isJsonWs '{' = false by decide),
            if_true,
            skipWs_cons_not_ws (show isJsonWs '}' = false by decide)]
        | cons kv kvs =>
          simp only [Json.dumpChars, List.cons_append, List.append_assoc,
            List.nil_append]
          obtain ⟨t0, he0⟩ := dumpMembers_cons kv kvs
          have hcan2 : ((kv :: kvs).map Prod.fst).Nodup ∧
              canonicalMembers (kv :: kvs) = true := by
            have := hcan
            simp only [Json.canonical, Bool.and_eq_true, decide_eq_true_eq]
              at this
            exact this
          have hL : dumpMembers (kv :: kvs) ++ '}' :: rest =
              '"' :: (t0 ++ '}' :: rest) := by
            rw [he0]
            simp
          simp only [parseVal,
            skipWs_cons_not_ws (show isJsonWs '{' = false by decide),
            if_true]
          rw [hL, skipWs_cons_not_ws (show isJsonWs '"' = false by decide)]
          simp only [if_neg (show ¬ (('"' : Char) = '}') by decide)]
          rw [← hL]
          rw [ih3 (kv :: kvs) [] rest (by simp) hcan2.2
            (by simp only [Json.fuelNeed] at hf; omega)]
          rw [foldInsert_nil hcan2.1]
          simp
    · intro xs acc rest hne hcanE hfE
      cases xs with
      | nil => exact absurd rfl hne
      | cons x xs =>
        have hcanx : x.canonical = true ∧ canonicalElems xs = true := by
          simpa [canonicalElems, Bool.and_eq_true] using hcanE
        cases xs with
        | nil =>
          simp only [dumpElems, parseElems]
          rw [ih1 x (']' :: rest) hcanx.1
            (by simp only [fuelNeedElems] at hfE; omega) rfl]
          simp only [skipWs_cons_not_ws (show isJsonWs ']' = false by decide),
            if_neg (show ¬ ((']' : Char) = ',') by decide), if_true]
        | cons y ys =>
          simp only [dumpElems, List.append_assoc, List.cons_append,
            parseElems]
          rw [ih1 x (',' :: ' ' :: (dumpElems (y :: ys) ++ ']' :: rest))
            hcanx.1 (by simp only [fuelNeedElems] at hfE; omega) rfl]
          simp only [skipWs_cons_not_ws (show isJsonWs ',' = false by decide),
            if_true]
          rw [parseElems_ws fuel (show isJsonWs ' ' = true by decide)]
          rw [ih2 (y :: ys) (acc ++ [x]) rest (by simp) hcanx.2
            (by simp only [fuelNeedElems] at hfE ⊢; omega)]
          simp
    · intro kvs acc rest hne hcanM hfM
      cases kvs with
      | nil => exact absurd rfl hne
      | cons kv kvs =>
        obtain ⟨k, v⟩ := kv
        have hcanv : v.canonical = true ∧ canonicalMembers kvs = true := by
          simpa [canonicalMembers, Bool.and_eq_true] using hcanM
        cases kvs with
        | nil =>
          simp only [dumpMembers, List.append_assoc, List.cons_append,
            List.nil_append, parseMembers,
            skipWs_cons_not_ws (show isJsonWs '"' = false by decide),
            if_true]
          rw [parseStr_escape k.data
            (':' :: ' ' :: (v.dumpChars ++ '}' :: rest))]
          simp only [skipWs_cons_not_ws (show isJsonWs ':' = false by decide),
            if_true]
          rw [parseVal_ws fuel (show isJsonWs ' ' = true by decide)]
          rw [ih1 v ('}' :: rest) hcanv.1
            (by simp only [fuelNeedMembers] at hfM; omega) rfl]
          simp only [skipWs_cons_not_ws (show isJsonWs '}' = false by decide),
            if_neg (show ¬ (('}' : Char) = ',') by decide), if_true]
          rfl
        | cons m ms =>
          simp only [dumpMembers, List.append_assoc, List.cons_append,
            List.nil_append, parseMembers,
            skipWs_cons_not_ws (show isJsonWs '"' = false by decide),
            if_true]
          rw [parseStr_escape k.data
            (':' :: ' ' :: (v.dumpChars ++ ',' :: ' ' ::
              (dumpMembers (m :: ms) ++ '}' :: rest)))]
          simp only [skipWs_cons_not_ws (show isJsonWs ':' = false by decide),
            if_true]
          rw [parseVal_ws fuel (show isJsonWs ' ' = true by decide)]
          rw [ih1 v (',' :: ' ' :: (dumpMembers (m :: ms) ++ '}' :: rest))
            hcanv.1 (by simp only [fuelNeedMembers] at hfM; omega) rfl]
          simp only [skipWs_cons_not_ws (show isJsonWs ',' = false by decide),
            if_true]
          rw [parseMembers_ws fuel (show isJsonWs ' ' = true by decide)]
          rw [ih3 (m :: ms) (insertPair acc (String.mk k.data) v) rest
            (by simp) hcanv.2
            (by simp only [fuelNeedMembers] at hfM ⊢; omega)]
          rfl

mutual

theorem fuelNeed_le_len (j : Json) : j.fuelNeed ≤ j.dumpChars.length := by
  cases j with
  | null => simp [Json.fuelNeed, Json.dumpChars]
  | bool b => cases b <;> simp [Json.fuelNeed, Json.dumpChars]
  | num n =>
    obtain ⟨c, t, he, _⟩ := intToChars_head n
    simp only [Json.fuelNeed, Json.dumpChars, he, List.length_cons]
    omega
  | str s => simp [Json.fuelNeed, Json.dumpChars]
  | arr xs =>
    have h := fuelNeedElems_le_len xs
    simp only [Json.fuelNeed, Json.dumpChars, List.length_cons,
      List.length_append, List.length_singleton]
    omega
  | obj kvs =>
    have h := fuelNeedMembers_le_len kvs
    simp only [Json.fuelNeed, Json.dumpChars, List.length_cons,
      List.length_append, List.length_singleton]
    omega

theorem fuelNeedElems_le_len (xs : List Json) :
    fuelNeedElems xs ≤ 1 + (dumpElems xs).length := by
  cases xs with
  | nil => simp [fuelNeedElems]
  | cons x xs =>
    cases xs with
    | nil =>
      have h := fuelNeed_le_len x
      simp only [fuelNeedElems, dumpElems]
      omega
    | cons y ys =>
      have h1 := fuelNeed_le_len x
      have h2 := fuelNeedElems_le_len (y :: ys)
      simp only [fuelNeedElems, dumpElems, List.length_append,
        List.length_cons] at h2 ⊢
      omega

theorem fuelNeedMembers_le_len (kvs : List (String × Json)) :
    fuelNeedMembers kvs ≤ 1 + (dumpMembers kvs).length := by
  cases kvs with
  | nil => simp [fuelNeedMembers]
  | cons kv kvs =>
    cases kvs with
    | nil =>
      obtain ⟨k, v⟩ := kv
      have h := fuelNeed_le_len v
      simp only [fuelNeedMembers, dumpMembers, List.length_cons,
        List.length_append]
      omega
    | cons m ms =>
      obtain ⟨k, v⟩ := kv
      have h1 := fuelNeed_le_len v
      have h2 := fuelNeedMembers_le_len (m :: ms)
      simp only [fuelNeedMembers, dumpMembers, List.length_append,
        List.length_cons] at h2 ⊢
      omega

end

/-- `json.loads` inverts `json.dumps` on every dict-shaped JSON value. -/
theorem loads_dumps (j : Json) (hc : j.canonical = true) :
    loads (dumps j) = some j := by
  unfold loads dumps
  have h1 := (parse_dump_roundtrip (j.dumpChars.length + 1)).1 j [] hc
    (by have := fuelNeed_le_len j; omega) rfl
  rw [List.append_nil] at h1
  rw [show (String.mk j.dumpChars).length = j.dumpChars.length from rfl,
    show (String.mk j.dumpChars).data = j.dumpChars from rfl, h1]
  simp [skipWs]

/- ### Cyrillic ratio lemmas -/

theorem cyrillicCount_le_length (l : List Char) : cyrillicCount l ≤ l.length :=
  List.length_filter_le _ _

theorem cyrillicFrac_nonneg (l : List Char) : 0 ≤ cyrillicFrac l := by
  unfold cyrillicFrac
  split_ifs
  · exact le_refl _
  · positivity

theorem cyrillicFrac_eq {l : List Char} (h : l ≠ []) :
    cyrillicFrac l = (cyrillicCount l : ℚ) / (l.length : ℚ) := by
  unfold cyrillicFrac
  rw [if_neg (by simpa using (List.length_eq_zero).not.mpr h)]

theorem cyrillicFrac_nil : cyrillicFrac [] = 0 := rfl

theorem length_cast_pos {l : List Char} (h : l ≠ []) :
    (0 : ℚ) < (l.length : ℚ) := by
  have : 0 < l.length := List.length_pos.mpr h
  exact_mod_cast this

theorem frac_lt_iff {l : List Char} (h : l ≠ []) (num den : Nat)
    (hd : 0 < den) :
    ((num : ℚ) / (den : ℚ) < cyrillicFrac l ↔
      num * l.length < cyrillicCount l * den) := by
  rw [cyrillicFrac_eq h]
  have hdq : (0 : ℚ) < (den : ℚ) := by exact_mod_cast hd
  rw [div_lt_div_iff hdq (length_cast_pos h)]
  exact_mod_cast Iff.rfl

theorem frac_le_iff {l : List Char} (h : l ≠ []) (num den : Nat)
    (hd : 0 < den) :
    (cyrillicFrac l ≤ (num : ℚ) / (den : ℚ) ↔
      cyrillicCount l * den ≤ num * l.length) := by
  rw [cyrillicFrac_eq h]
  have hdq : (0 : ℚ) < (den : ℚ) := by exact_mod_cast hd
  rw [div_le_div_iff (length_cast_pos h) hdq]
  exact_mod_cast Iff.rfl

theorem frac_floor_iff {l : List Char} (h : l ≠ []) :
    ((1 / 20 : ℚ) ≤ cyrillicFrac l ↔ l.length ≤ 20 * cyrillicCount l) := by
  rw [cyrillicFrac_eq h]
  rw [div_le_div_iff (by norm_num) (length_cast_pos h)]
  rw [one_mul, mul_comm]
  exact_mod_cast Iff.rfl

/- ### Selection loop invariants -/

theorem applyStrategy_selInv {w : List Char} {st : SelState}
    (h : selInv w st) (t : List Char) (g : List Char → List Char) :
    selInv w (applyStrategy t st g) := by
  simp only [applyStrategy]
  split_ifs with h1 h2
  · exact ⟨List.length_pos.mpr h1, Or.inr ⟨h1, rfl, rfl, h2.2⟩⟩
  · exact h
  · exact h

theorem applyStrategy_selGood {w : List Char} {st : SelState}
    (h : selGood w st) (g : List Char → List Char) :
    selGood w (applyStrategy w st g) := by
  obtain ⟨hi, hle, h0⟩ := h
  simp only [applyStrategy]
  split_ifs with h1 h2
  · have hfloor : (1 / 20 : ℚ) ≤ cyrillicFrac (g w) :=
      (frac_floor_iff h1).mpr (by omega)
    refine ⟨⟨List.length_pos.mpr h1, Or.inr ⟨h1, rfl, rfl, h2.2⟩⟩, ?_, ?_⟩
    · rcases hi.2 with ⟨hbw, hn0⟩ | ⟨hbne, hnum, hden, hfl⟩
      · have hw : cyrillicFrac w < 1 / 20 := h0 hn0
        linarith
      · have hlt : (st.ratio_num : ℚ) / (st.ratio_den : ℚ) <
            cyrillicFrac (g w) :=
          (frac_lt_iff h1 _ _ hi.1).mpr (by omega)
        have heq : (st.ratio_num : ℚ) / (st.ratio_den : ℚ) =
            cyrillicFrac st.best_result := by
          rw [cyrillicFrac_eq hbne, hnum, hden]
        linarith
    · intro hc0
      exfalso
      have hc0' : cyrillicCount (g w) = 0 := hc0
      have hgt := h2.1
      rw [hc0'] at hgt
      simp at hgt
  · exact ⟨hi, hle, h0⟩
  · exact ⟨hi, hle, h0⟩

theorem applyStrategy_id_selGood {w : List Char} {st : SelState}
    (h : selInv w st) {g : List Char → List Char} (hg : g w = w) :
    selGood w (applyStrategy w st g) := by
  obtain ⟨hden, hcase⟩ := h
  simp only [applyStrategy, hg]
  split_ifs with h1 h2
  · refine ⟨⟨List.length_pos.mpr h1, Or.inr ⟨h1, rfl, rfl, h2.2⟩⟩,
      le_refl _, ?_⟩
    intro hc0
    exfalso
    have hc0' : cyrillicCount w = 0 := hc0
    have hgt := h2.1
    rw [hc0'] at hgt
    simp at hgt
  · rcases not_and_or.mp h2 with hA | hB
    · push_neg at hA
      rcases hcase with ⟨hbw, hn0⟩ | ⟨hbne, hnum, hden2, hfl⟩
      · have hc0 : cyrillicCount w = 0 := by
          rw [hn0] at hA
          simp only [Nat.zero_mul, Nat.le_zero] at hA
          rcases Nat.mul_eq_zero.mp hA with hc | hd
          · exact hc
          · omega
        have hfw : cyrillicFrac w = 0 := by
          rw [cyrillicFrac_eq h1, hc0]
          simp
        refine ⟨⟨hden, Or.inl ⟨hbw, hn0⟩⟩, ?_, ?_⟩
        · rw [hbw]
        · intro _
          rw [hfw]
          norm_num
      · have hle2 : cyrillicFrac w ≤
            (st.ratio_num : ℚ) / (st.ratio_den : ℚ) :=
          (frac_le_iff h1 _ _ hden).mpr hA
        have heq : (st.ratio_num : ℚ) / (st.ratio_den : ℚ) =
            cyrillicFrac st.best_result := by
          rw [cyrillicFrac_eq hbne, hnum, hden2]
        refine ⟨⟨hden, Or.inr ⟨hbne, hnum, hden2, hfl⟩⟩, by linarith,
          fun hc0 => absurd hc0 (by omega)⟩
    · push_neg at hB
      have hfw : cyrillicFrac w < 1 / 20 := by
        have hnot : ¬ ((1 / 20 : ℚ) ≤ cyrillicFrac w) := fun hc =>
          absurd ((frac_floor_iff h1).mp hc) (by omega)
        exact lt_of_not_ge hnot
      rcases hcase with ⟨hbw, hn0⟩ | ⟨hbne, hnum, hden2, hfl⟩
      · exact ⟨⟨hden, Or.inl ⟨hbw, hn0⟩⟩, by rw [hbw], fun _ => hfw⟩
      · have h20 : (1 / 20 : ℚ) ≤ cyrillicFrac st.best_result :=
          (frac_floor_iff hbne).mpr (by omega)
        refine ⟨⟨hden, Or.inr ⟨hbne, hnum, hden2, hfl⟩⟩, by linarith,
          fun hc0 => absurd hc0 (by omega)⟩
  · have hw : w = [] := by
      by_contra hc
      exact h1 hc
    refine ⟨⟨hden, hcase⟩, ?_, ?_⟩
    · rw [hw, cyrillicFrac_nil]
      exact cyrillicFrac_nonneg _
    · intro _
      rw [hw, cyrillicFrac_nil]
      norm_num

theorem strategy4_id (w : List Char) : strategy4 w = w := by
  unfold strategy4
  exact utf8DecodeIgnore_encode w

theorem fix_score_fold (w : List Char) :
    cyrillicFrac w ≤
      cyrillicFrac ((strategies.foldl (applyStrategy w)
        ⟨w, 0, 1⟩).best_result) := by
  have h0 : selInv w ⟨w, 0, 1⟩ := ⟨Nat.one_pos, Or.inl ⟨rfl, rfl⟩⟩
  have h1 := applyStrategy_selInv h0 w strategy1
  have h2 := applyStrategy_selInv h1 w strategy2
  have h3 := applyStrategy_selInv h2 w strategy3
  have h4 := applyStrategy_id_selGood h3 (strategy4_id w)
  have h5 := applyStrategy_selGood h4 manual_fix_russian_encoding
  simpa [strategies, List.foldl] using h5.2.1

/- ### fix_encoding basic behaviour -/

theorem string_data_mk (l : List Char) : (String.mk l).data = l := rfl

theorem fix_unchanged (f : String → String) (s : String) (hf : f s = s)
    (hd : corruptionDetected s.data = false) : fix_encoding f s = s := by
  unfold fix_encoding
  by_cases hnil : s.data = []
  · rw [if_pos hnil]
  · rw [if_neg hnil]
    simp [hf, hd]

theorem fix_detected (f : String → String) (s : String) (hnil : s.data ≠ [])
    (hf : f s = s) (hdet : corruptionDetected s.data = true) :
    fix_encoding f s =
      String.mk (strategies.foldl (applyStrategy s.data)
        ⟨s.data, 0, 1⟩).best_result := by
  unfold fix_encoding
  rw [if_neg hnil]
  simp [hf, hdet]

/- ### Claim C3 -/

/-- C3: Corrected.  The monotonicity half of the claim holds: when the ftfy
collaborator leaves the input unchanged, the repaired text's Cyrillic ratio
(the scoring function of the selection loop) is at least the input's own
ratio.  The tie-breaking half is refuted by `c3_counterexample`: the loop
compares candidates against the best ratio so far starting from zero, not
from the input's own score, so a candidate that merely ties the input can
replace it. -/
theorem c3_score_monotone (f : String → String) (s : String) (hf : f s = s) :
    cyrillicFrac s.data ≤ cyrillicFrac ((fix_encoding f s).data) := by
  by_cases hnil : s.data = []
  · rw [show fix_encoding f s = s from by unfold fix_encoding; rw [if_pos hnil]]
  · by_cases hdet : corruptionDetected s.data = true
    · have h : cyrillicFrac ((fix_encoding f s).data) = cyrillicFrac
          ((strategies.foldl (applyStrategy s.data)
            ⟨s.data, 0, 1⟩).best_result) := by
        rw [fix_detected f s hnil hf hdet, string_data_mk]
      rw [h]
      exact fix_score_fold s.data
    · rw [fix_unchanged f s hf (by simpa using hdet)]

/-- Witness for C3 at a concrete input. -/
theorem c3_witness :
    cyrillicFrac tieText.data ≤ cyrillicFrac ((fix_encoding id tieText).data) :=
  c3_score_monotone id tieText rfl

/-- C3 counterexample: on `tieText` no strategy candidate scores strictly
above the input (the best candidates tie with its ratio 1/2), yet the
repair replaces the input instead of keeping it. -/
theorem c3_counterexample :
    (strategies.all fun g =>
      decide (cyrillicFrac (g tieText.data) ≤ cyrillicFrac tieText.data))
        = true ∧
    fix_encoding id tieText ≠ tieText := by
  constructor
  · simp only [strategies, List.all_cons, List.all_nil, Bool.and_eq_true,
      decide_eq_true_eq, and_true]
    have ht : cyrillicFrac tieText.data = 3 / 6 := by
      rw [cyrillicFrac_eq (by decide)]
      norm_num [show cyrillicCount tieText.data = 3 from by decide,
        show tieText.data.length = 6 from by decide]
    refine ⟨?_, ?_, ?_, ?_, ?_⟩
    · rw [show strategy1 tieText.data = ['н', '!'] from by decide, ht,
        cyrillicFrac_eq (by decide)]
      norm_num [show cyrillicCount ['н', '!'] = 1 from by decide]
    · rw [show strategy2 tieText.data = ['!'] from by decide, ht,
        cyrillicFrac_eq (by decide)]
      norm_num [show cyrillicCount ['!'] = 0 from by decide]
    · rw [show strategy3 tieText.data = ['!'] from by decide, ht,
        cyrillicFrac_eq (by decide)]
      norm_num [show cyrillicCount ['!'] = 0 from by decide]
    · rw [strategy4_id]
    · rw [show manual_fix_russian_encoding tieText.data = tieText.data
        from by decide]
  · decide

/- ### Claim C5 -/

/-- C5: Corrected.  Detection is not "two distinct signatures within the
first 500 characters": the code declares corruption as soon as any single
signature occurs anywhere in the text (`any(pattern in text ...)`), with no
windowing and no two-signature requirement (see `c5_counterexample`). -/
theorem c5_detection_rule (s : List Char) :
    corruptionDetected s = true ↔
      ∃ p ∈ bad_patterns, containsSub s p.data = true := by
  simp [corruptionDetected, List.any_eq_true]

/-- C5 counterexample: a string carrying exactly one distinct signature is
declared corrupted by the code, while the spec's two-distinct-signature rule
declares it clean. -/
theorem c5_counterexample :
    corruptionDetected "Рєаа".data = true ∧
    specCorruptionDeclared "Рєаа".data = false :=
  ⟨by decide, by decide⟩

/- ### Claims C8 and C9 -/

/-- C9: Corrected.  There is no final normalization step: when the ftfy
collaborator is a no-op on the input and no corruption signature is present,
the engine returns the input exactly as it came — leading/trailing
whitespace, whitespace runs and non-breaking spaces included
(`c9_counterexample` exhibits a non-empty input returned unchanged that
fails every condition of the spec's normalization). -/
theorem c9_no_final_normalization (f : String → String) (s : String)
    (hf : f s = s) (hd : corruptionDetected s.data = false) :
    fix_encoding f s = s :=
  fix_unchanged f s hf hd

/-- Witness for C9 at a concrete input. -/
theorem c9_witness : fix_encoding id " a" = " a" :=
  c9_no_final_normalization id " a" rfl (by decide)

/-- C9 counterexample: the non-empty input " a" comes back exactly as it
went in, so the spec's trimming/collapsing normalization was not applied. -/
theorem c9_counterexample :
    fix_encoding id " a" = " a" ∧
    specFinalNormalized (fix_encoding id " a") = false :=
  ⟨by decide, by decide⟩

/-- C8: Corrected.  `fix_encoding` is not idempotent in general
(`c8_counterexample`); it is idempotent on inputs free of corruption
signatures when the ftfy collaborator is a no-op, because such inputs pass
through unchanged. -/
theorem c8_idempotent_when_clean (f : String → String) (s : String)
    (hf : ∀ t, f t = t) (hd : corruptionDetected s.data = false) :
    fix_encoding f (fix_encoding f s) = fix_encoding f s := by
  rw [fix_unchanged f s (hf s) hd]
  exact fix_unchanged f s (hf s) hd

/-- Witness for C8 at a concrete input. -/
theorem c8_witness :
    fix_encoding id (fix_encoding id "query") = fix_encoding id "query" :=
  c8_idempotent_when_clean id "query" (fun _ => rfl) (by decide)

/-- C8 counterexample: applying the repair twice to `unstableText` keeps
changing the text (the first pass produces a string that still carries a
signature and is repaired again). -/
theorem c8_counterexample :
    fix_encoding id (fix_encoding id unstableText) ≠
      fix_encoding id unstableText := by
  decide

/- ### Claim C2 -/

/-- C2: Corrected.  A frame whose payload fails to decode does not make the
loop "continue awaiting the next frame": `read_message` returns `None` for
every decode failure, and `main` breaks out of the loop on `None`, so the
connection processing ends and any later frames on the stream are never
served (`c2_counterexample`). -/
theorem c2_bad_frame_ends_loop (P : Provider) (rest : List Nat) :
    serverLoop P (badJsonFrame ++ rest) = [] := rfl

/-- C2 counterexample: a valid initialize frame right after a bad-JSON frame
is never answered, unlike the same frame alone. -/
theorem c2_counterexample :
    serverLoop providerNA (badJsonFrame ++ initFrame) ≠
      serverLoop providerNA initFrame := by
  have h1 : serverLoop providerNA (badJsonFrame ++ initFrame) = [] := rfl
  have h2 : serverLoop providerNA initFrame =
      [jsonrpcResponse (Json.num 1) [("result", initializeResult)]] := rfl
  rw [h1, h2]
  simp

/- ### Claim C6 counterexample -/

/-- C6 counterexample: the TCP `read_message` returns a JSON list as a
successfully decoded message (it has no dict check), refuting the
both-transports claim; the STDIO half is `c6_stdio_message_is_dict`. -/
theorem c6_counterexample :
    tcp_read_message (utf8Encode "3\n[1]\n".data) =
      some (Json.arr [Json.num 1]) ∧
    (Json.arr [Json.num 1]).isObj = false :=
  ⟨rfl, rfl⟩

/- ### Claim C4 counterexample -/

/-- C4 counterexample: a request without an "id" whose method is unknown
still produces a response (the method-not-found error with a null id), so
notifications are not universally silent. -/
theorem c4_counterexample :
    dictGet [("method", Json.str "made/up")] "id" = none ∧
    handle_request providerNA [("method", Json.str "made/up")] ≠
      Except.ok none := by
  refine ⟨rfl, fun h => ?_⟩
  have hb : (match handle_request providerNA [("method", Json.str "made/up")]
      with
    | Except.ok none => true
    | _ => false) = true := by rw [h]
  exact Bool.noConfusion hb

/- ### Claim C6: STDIO messages are dicts -/

theorem lengthPath_isObj (stripped : String) (rest : List Nat) (j : Json)
    (r : List Nat) (h : lengthPath stripped rest = (some j, r)) :
    j.isObj = true := by
  unfold lengthPath at h
  split at h
  · simp at h
  · split at h
    · simp at h
    · split at h
      · simp at h
      · split at h
        · simp at h
        · split at h
          · split at h
            · rename_i hobj
              simp only [Prod.mk.injEq, Option.some.injEq] at h
              rw [← h.1]
              exact hobj
            · simp at h
          · simp at h

theorem read_message_core_isObj : ∀ (fuel : Nat) (stream : List Nat)
    (j : Json) (r : List Nat),
    read_message_core fuel stream = (some j, r) → j.isObj = true := by
  intro fuel
  induction fuel with
  | zero =>
    intro stream j r h
    simp [read_message_core] at h
  | succ fuel ih =>
    intro stream j r h
    rw [read_message_core] at h
    split at h
    · simp at h
    · split at h
      · simp at h
      · split at h
        · exact ih _ _ _ h
        · split at h
          · split at h
            · split at h
              · rename_i hobj
                simp only [Prod.mk.injEq, Option.some.injEq] at h
                rw [← h.1]
                exact hobj
              · simp at h
            · exact lengthPath_isObj _ _ _ _ h
          · exact lengthPath_isObj _ _ _ _ h

/-- C6: Corrected.  The invariant holds on STDIO: every message
`read_message` returns there passes the explicit dict check.  It fails on
TCP, whose `read_message` has no such check and hands scalars and lists to
the handler (`c6_counterexample`). -/
theorem c6_stdio_message_is_dict (stream : List Nat) (j : Json)
    (rest : List Nat) (h : read_message stream = (some j, rest)) :
    j.isObj = true :=
  read_message_core_isObj _ _ _ _ h

/-- Witness for C6 at a concrete frame. -/
theorem c6_witness : (Json.obj [("a", Json.num 1)]).isObj = true :=
  c6_stdio_message_is_dict (send_message (Json.obj [("a", Json.num 1)]))
    (Json.obj [("a", Json.num 1)]) [] rfl

/- ### Claim C10: response envelope -/

theorem toolsCall_shape (P : Provider) (rid : Json) (tn : Option Json)
    (aj : Json) : ∃ rest, toolsCall P rid tn aj =
      Json.obj (("jsonrpc", Json.str "2.0") :: ("id", rid) :: rest) := by
  unfold toolsCall
  split
  · split_ifs with h1 h2
    · split
      · split
        · exact ⟨_, rfl⟩
        · split_ifs with h3
          · exact ⟨_, rfl⟩
          · unfold dispatchSearch
            split
            · exact ⟨_, rfl⟩
            · exact ⟨_, rfl⟩
        · exact ⟨_, rfl⟩
      · exact ⟨_, rfl⟩
    · exact ⟨_, rfl⟩
    · exact ⟨_, rfl⟩
  · exact ⟨_, rfl⟩

/-- C10: Confirmed.  Every response `handle_request` produces — result
responses, method-not-found, invalid-params and internal errors alike — is a
dict beginning with `jsonrpc: "2.0"` and the request's id (null when the
request carried none). -/
theorem c10_response_envelope (P : Provider) (req : List (String × Json))
    (r : Json) (h : handle_request P req = Except.ok (some r)) :
    ∃ rest, r = Json.obj (("jsonrpc", Json.str "2.0") ::
      ("id", (dictGet req "id").getD Json.null) :: rest) := by
  unfold handle_request at h
  split at h
  · simp only [Except.ok.injEq, Option.some.injEq] at h
    subst h
    exact ⟨_, rfl⟩
  · simp at h
  · simp at h
  · simp only [Except.ok.injEq, Option.some.injEq] at h
    subst h
    exact ⟨_, rfl⟩
  · simp only [Except.ok.injEq, Option.some.injEq] at h
    subst h
    exact ⟨_, rfl⟩
  · simp only [Except.ok.injEq, Option.some.injEq] at h
    subst h
    exact ⟨_, rfl⟩
  · simp only [Except.ok.injEq, Option.some.injEq] at h
    subst h
    exact ⟨_, rfl⟩
  · split at h
    · simp only [Except.ok.injEq, Option.some.injEq] at h
      obtain ⟨rest, hts⟩ := toolsCall_shape P
        ((dictGet req "id").getD Json.null) (dictGet _ "name")
        ((dictGet _ "arguments").getD (Json.obj []))
      rw [← h, hts]
      exact ⟨rest, rfl⟩
    · simp at h
  · simp only [Except.ok.injEq, Option.some.injEq] at h
    subst h
    exact ⟨_, rfl⟩

/-- Witness for C10 at a concrete request. -/
theorem c10_witness : ∃ rest,
    jsonrpcResponse (Json.num 1) [("result", initializeResult)] =
      Json.obj (("jsonrpc", Json.str "2.0") ::
        ("id", (dictGet initRequestKvs "id").getD Json.null) :: rest) :=
  c10_response_envelope providerNA initRequestKvs
    (jsonrpcResponse (Json.num 1) [("result", initializeResult)]) rfl

/- ### Claim C4: notifications -/

/-- C4: Corrected.  `handle_request` does not test for an "id": it returns
no response exactly for the two methods "progress" and
"notifications/initialized", whatever the id; an id-less request with any
other method still gets a response (with a null id, `c4_counterexample`). -/
theorem c4_silent_methods (P : Provider) (req : List (String × Json)) :
    handle_request P req = Except.ok none ↔
      (dictGet req "method" = some (Json.str "progress") ∨
       dictGet req "method" = some (Json.str "notifications/initialized")) := by
  constructor
  · intro h
    unfold handle_request at h
    split at h
    · simp at h
    · rename_i heq
      exact Or.inl heq
    · rename_i heq
      exact Or.inr heq
    · simp at h
    · simp at h
    · simp at h
    · simp at h
    · split at h
      · simp at h
      · simp at h
    · simp at h
  · intro h
    rcases h with h | h <;> (unfold handle_request; rw [h]; rfl)

/- ### Claim C7: empty-query validation -/

theorem handle_request_tools_call (P : Provider) (req : List (String × Json))
    (hm : dictGet req "method" = some (Json.str "tools/call")) :
    handle_request P req =
      match (dictGet req "params").getD (Json.obj []) with
      | .obj pkvs =>
        .ok (some (toolsCall P ((dictGet req "id").getD .null)
          (dictGet pkvs "name") ((dictGet pkvs "arguments").getD (.obj []))))
      | _ => .error "AttributeError" := by
  unfold handle_request
  rw [hm]
  rfl

/-- C7: Confirmed.  A tools/call request for any of the five search tools
whose query argument is absent, empty or whitespace-only is answered with
the -32602 invalid-params response carrying the request's id, and the
provider is never consulted (the result does not depend on `P`). -/
theorem c7_empty_query (P : Provider) (req pkvs args : List (String × Json))
    (name : String)
    (hm : dictGet req "method" = some (Json.str "tools/call"))
    (hp : dictGet req "params" = some (Json.obj pkvs))
    (hn : dictGet pkvs "name" = some (Json.str name))
    (hname : name ∈ searchToolNames)
    (ha : dictGet pkvs "arguments" = some (Json.obj args))
    (hq : dictGet args "query" = none ∨
      ∃ q, dictGet args "query" = some (Json.str q) ∧ (pyStrip q).data = []) :
    handle_request P req = Except.ok (some (emptyQueryResponse
      ((dictGet req "id").getD Json.null) name args)) := by
  rw [handle_request_tools_call P req hm, hp]
  simp only [Option.getD_some]
  unfold toolsCall
  rw [hn, ha]
  simp only [Option.getD_some, if_pos hname]
  rcases hq with hq | ⟨q, hq1, hq2⟩
  · rw [hq]
  · rw [hq1]
    simp only [if_pos hq2]

/-- Witness for C7 at a concrete whitespace-only query. -/
theorem c7_witness :
    handle_request providerNA
      [("id", Json.num 3), ("method", Json.str "tools/call"),
        ("params", Json.obj [("name", Json.str "ddg_search_text"),
          ("arguments", Json.obj [("query", Json.str "  ")])])] =
      Except.ok (some (emptyQueryResponse
        ((dictGet [("id", Json.num 3), ("method", Json.str "tools/call"),
          ("params", Json.obj [("name", Json.str "ddg_search_text"),
            ("arguments", Json.obj [("query", Json.str "  ")])])] "id").getD
              Json.null)
        "ddg_search_text" [("query", Json.str "  ")])) :=
  c7_empty_query providerNA _ _ _ "ddg_search_text" rfl rfl rfl (by decide)
    rfl (Or.inr ⟨"  ", rfl, rfl⟩)

/- ### Claim C1: frame round-trip -/

theorem string_mk_data (s : String) : String.mk s.data = s := rfl

theorem isDigitChar_toNat {c : Char} (h : isDigitChar c = true) :
    48 ≤ c.toNat ∧ c.toNat ≤ 57 := by
  simpa [isDigitChar, Bool.and_eq_true, decide_eq_true_eq] using h

theorem isPySpace_digit {c : Char} (h1 : 48 ≤ c.toNat) (h2 : c.toNat ≤ 57) :
    isPySpace c = false := by
  simp only [isPySpace, Bool.or_eq_false_iff, beq_eq_false_iff_ne]
  repeat' apply And.intro
  all_goals first
  | exact char_ne_of_toNat_ne (show c.toNat ≠ 32 by omega)
  | exact char_ne_of_toNat_ne (show c.toNat ≠ 9 by omega)
  | exact char_ne_of_toNat_ne (show c.toNat ≠ 10 by omega)
  | exact char_ne_of_toNat_ne (show c.toNat ≠ 13 by omega)
  | exact char_ne_of_toNat_ne (show c.toNat ≠ 11 by omega)
  | exact char_ne_of_toNat_ne (show c.toNat ≠ 12 by omega)
  | exact char_ne_of_toNat_ne (show c.toNat ≠ 28 by omega)
  | exact char_ne_of_toNat_ne (show c.toNat ≠ 29 by omega)
  | exact char_ne_of_toNat_ne (show c.toNat ≠ 30 by omega)
  | exact char_ne_of_toNat_ne (show c.toNat ≠ 31 by omega)
  | exact char_ne_of_toNat_ne (show c.toNat ≠ 133 by omega)
  | exact char_ne_of_toNat_ne (show c.toNat ≠ 160 by omega)

theorem dropWhile_head_false {α : Type} {p : α → Bool} {a : α} {l : List α}
    (h : p a = false) : (a :: l).dropWhile p = a :: l := by
  simp [List.dropWhile_cons, h]

theorem dropWhile_all_false {α : Type} {p : α → Bool} {l : List α}
    (h : ∀ x ∈ l, p x = false) : l.dropWhile p = l := by
  cases l with
  | nil => rfl
  | cons a l => simp [List.dropWhile_cons, h a (List.mem_cons_self a l)]

theorem takeLine_append (bs : List Nat) (r : List Nat)
    (h : ∀ b ∈ bs, b ≠ 0x0A) :
    takeLine (bs ++ 0x0A :: r) = (bs ++ [0x0A], r) := by
  induction bs with
  | nil => simp [takeLine]
  | cons b bs ih =>
    simp only [List.cons_append, takeLine,
      if_neg (h b (List.mem_cons_self b bs)), List.append_eq]
    rw [ih (fun x hx => h x (List.mem_cons_of_mem b hx))]

theorem utf8Encode_ascii (cs : List Char) (h : ∀ c ∈ cs, c.toNat < 0x80) :
    utf8Encode cs = cs.map Char.toNat := by
  induction cs with
  | nil => rfl
  | cons c cs ih =>
    rw [utf8Encode, ih (fun x hx => h x (List.mem_cons_of_mem c hx))]
    have hc := h c (List.mem_cons_self c cs)
    unfold utf8EncodeChar
    rw [if_pos hc]
    rfl

theorem pyStrip_line (cs : List Char) (hne : cs ≠ [])
    (h : ∀ c ∈ cs, isPySpace c = false) :
    pyStrip (String.mk (cs ++ ['\n'])) = String.mk cs := by
  unfold pyStrip
  rw [string_data_mk]
  obtain ⟨c0, cs', he⟩ : ∃ c0 cs', cs = c0 :: cs' := by
    cases cs with
    | nil => exact absurd rfl hne
    | cons a b => exact ⟨a, b, rfl⟩
  subst he
  rw [List.cons_append,
    dropWhile_head_false (h c0 (List.mem_cons_self _ _)),
    ← List.cons_append, List.reverse_concat, List.dropWhile_cons]
  rw [if_pos (by decide : isPySpace '\n' = true)]
  rw [dropWhile_all_false (fun x hx => h x (List.mem_reverse.mp hx))]
  rw [List.reverse_reverse]

theorem pyIntParse_digits_cons (c : Char) (t : List Char)
    (hall : ∀ x ∈ c :: t, isDigitChar x = true) :
    pyIntParse (String.mk (c :: t)) =
      some ((digitsVal 0 (c :: t) : Int)) := by
  have hct := isDigitChar_toNat (hall c (List.mem_cons_self c t))
  show (if c = '-' then _ else _) = _
  rw [if_neg (char_ne_of_toNat_ne (show c.toNat ≠ 45 by omega)),
    if_neg (char_ne_of_toNat_ne (show c.toNat ≠ 43 by omega)),
    if_pos (List.all_eq_true.mpr (fun x hx => hall x hx))]

theorem pyIntParse_natDigits (n : Nat) :
    pyIntParse (String.mk (natDigits n)) = some ((n : Nat) : Int) := by
  obtain ⟨c, t, he⟩ : ∃ c t, natDigits n = c :: t := by
    cases hnd : natDigits n with
    | nil => exact absurd hnd (natDigits_ne_nil n)
    | cons a b => exact ⟨a, b, rfl⟩
  have hv := digitsVal_natDigits n 0
  rw [he] at hv
  simp only [Nat.zero_mul, Nat.zero_add] at hv
  rw [he, pyIntParse_digits_cons c t
    (fun x hx => natDigits_all_digit n x (he ▸ hx)), hv]

theorem lengthPath_digits (L : Nat) (payload : List Nat) (j : Json)
    (hL : payload.length = L)
    (hdec : utf8DecodeStrict payload = some (dumps j).data)
    (hload : loads (dumps j) = some j) (hobj : j.isObj = true) :
    lengthPath (String.mk (natDigits L)) (payload ++ [0x0A]) = (some j, []) := by
  unfold lengthPath
  rw [pyIntParse_natDigits]
  show (if (L : Int) < 0 then _ else _) = _
  rw [if_neg (by omega : ¬ ((L : Int) < 0))]
  simp only [Int.toNat_natCast]
  rw [List.take_left' hL, if_neg (by rw [hL]; simp)]
  simp only [hdec]
  rw [string_mk_data]
  simp only [hload]
  rw [if_pos hobj, List.drop_left' hL]
  rfl

theorem natDigits_bytes (n : Nat) :
    ∀ b ∈ utf8Encode (natDigits n), 48 ≤ b ∧ b ≤ 57 := by
  rw [utf8Encode_ascii _ (fun c hc => by
    have := isDigitChar_toNat (natDigits_all_digit _ c hc)
    omega)]
  intro b hb
  obtain ⟨c, hc, rfl⟩ := List.mem_map.mp hb
  exact isDigitChar_toNat (natDigits_all_digit _ c hc)

theorem read_message_frame (payload : List Nat) (j : Json)
    (hdec : utf8DecodeStrict payload = some (dumps j).data)
    (hload : loads (dumps j) = some j) (hobj : j.isObj = true) :
    read_message (utf8Encode (natDigits payload.length) ++ [0x0A] ++
      payload ++ [0x0A]) = (some j, []) := by
  have ht : takeLine (utf8Encode (natDigits payload.length) ++
        0x0A :: (payload ++ [0x0A])) =
      (utf8Encode (natDigits payload.length) ++ [0x0A], payload ++ [0x0A]) :=
    takeLine_append _ _ (fun b hb => by
      have := natDigits_bytes payload.length b hb
      omega)
  have hdecL : utf8DecodeStrict (utf8Encode (natDigits payload.length) ++
        [0x0A]) = some (natDigits payload.length ++ ['\n']) := by
    rw [utf8DecodeStrict_encode_append,
      show utf8DecodeStrict [0x0A] = some ['\n'] from rfl]
    rfl
  have hread : readline (utf8Encode (natDigits payload.length) ++
        0x0A :: (payload ++ [0x0A])) =
      some (String.mk (natDigits payload.length ++ ['\n']),
        payload ++ [0x0A]) := by
    unfold readline
    rw [ht]
    simp only [hdecL]
  have hstream : utf8Encode (natDigits payload.length) ++ [0x0A] ++
      payload ++ [0x0A] =
      utf8Encode (natDigits payload.length) ++ 0x0A :: (payload ++ [0x0A]) := by
    simp
  have hstrip : pyStrip (String.mk (natDigits payload.length ++ ['\n'])) =
      String.mk (natDigits payload.length) :=
    pyStrip_line _ (natDigits_ne_nil _) (fun c hcm => by
      have := isDigitChar_toNat (natDigits_all_digit _ c hcm)
      exact isPySpace_digit this.1 this.2)
  obtain ⟨c, t, he⟩ : ∃ c t, natDigits payload.length = c :: t := by
    cases hnd : natDigits payload.length with
    | nil => exact absurd hnd (natDigits_ne_nil _)
    | cons a b => exact ⟨a, b, rfl⟩
  have hct := isDigitChar_toNat (natDigits_all_digit _ c
    (he ▸ List.mem_cons_self c t))
  have hsb : startsLBrace (String.mk (natDigits payload.length)) = false := by
    rw [he]
    show (c == '{') = false
    rw [beq_eq_false_iff_ne]
    exact char_ne_of_toNat_ne (show c.toNat ≠ 123 by omega)
  unfold read_message
  rw [hstream, read_message_core]
  simp only [hread, string_data_mk]
  rw [if_neg (show ¬ (natDigits payload.length ++ ['\n'] = []) by simp)]
  rw [hstrip]
  simp only [string_data_mk]
  rw [if_neg (natDigits_ne_nil payload.length), hsb, Bool.false_and,
    if_neg (by simp)]
  exact lengthPath_digits payload.length payload j rfl hdec hload hobj

/-- C1: Confirmed.  For every JSON object whose nested objects carry
pairwise-distinct keys (every dict the server serializes is of this form),
framing it with `send_message` — a byte-count prefix line, the UTF-8
payload, a closing newline — and reading that byte stream back with
`read_message` yields the same object with the stream fully consumed; the
prefix counts bytes, so this covers non-ASCII payloads (see
`c1_witness`). -/
theorem c1_frame_roundtrip (kvs : List (String × Json))
    (hc : (Json.obj kvs).canonical = true) :
    read_message (send_message (Json.obj kvs)) = (some (Json.obj kvs), []) := by
  unfold send_message
  rw [show (utf8Encode (dumps (Json.obj kvs)).data).length =
    (utf8Encode (dumps (Json.obj kvs)).data).length from rfl]
  exact read_message_frame (utf8Encode (dumps (Json.obj kvs)).data)
    (Json.obj kvs) (utf8DecodeStrict_encode _) (loads_dumps _ hc) rfl

/-- Witness for C1 on a frame whose payload is non-ASCII (multi-byte
UTF-8). -/
theorem c1_witness :
    (Json.obj [("q", Json.str "привет")]).canonical = true ∧
    read_message (send_message (Json.obj [("q", Json.str "привет")])) =
      (some (Json.obj [("q", Json.str "привет")]), []) :=
  ⟨rfl, c1_frame_roundtrip [("q", Json.str "привет")] rfl⟩
